import Mathlib

/-
Verification of the hierarchical key-matching script
(python-scripts/hierarchical_key_match.py).

The script matches rows of a reference dataset (df1) against a comparison
dataset (df2) on a primary key, escalating to phone and date columns when a
primary-key value is duplicated in either dataset.

The embedding below translates the script function by function:
  * `normalize_date` / `dates_within_range`  (lines 65-92)
  * duplicate detection via value counts     (lines 134-146)
  * lookup construction from df2             (lines 149-181)
  * per-row classification of df1            (lines 194-274)
  * output assembly df1.loc[indices]         (lines 276-277)
  * `validate_columns`                       (lines 56-62)
  * `read_file`                              (lines 20-36)

Dates are modelled at second granularity as integers (the script compares
`total_seconds()` of datetime differences against an integer tolerance).
A date cell is either missing, unparseable, or a valid timestamp; the parsed
form is `Option Int` exactly as `normalize_date` returns a datetime or None.
-/

namespace HierKeyMatch

/-- A date cell: missing (NaN), unparseable text, or a valid timestamp
measured in seconds. -/
inductive DateVal where
  | missing : DateVal
  | unparseable : DateVal
  | valid : Int → DateVal
deriving DecidableEq, Repr

/-- Embedding of `normalize_date` (lines 65-80): missing and unparseable
cells map to None, valid cells parse to their timestamp. -/
def normalize_date : DateVal → Option Int
  | DateVal.missing => none
  | DateVal.unparseable => none
  | DateVal.valid t => some t

/-- Embedding of `dates_within_range` (lines 83-92): false when either side
is None, otherwise the absolute difference must be at most `max_seconds`. -/
def dates_within_range (date1 date2 : Option Int) (max_seconds : Int) : Bool :=
  match date1, date2 with
  | some d1, some d2 => decide (|d1 - d2| ≤ max_seconds)
  | _, _ => false

/-- One row of a dataset: the three cells the matcher may read plus the rest
of the row's schema, which the matcher never touches. -/
structure Row (κ φ ρ : Type) where
  pk : κ
  phone : φ
  date : DateVal
  rest : ρ
deriving DecidableEq, Repr

/-- Which auxiliary columns are configured, and the date tolerance
(`phone_col`, `date_col`, `date_tolerance` arguments of
`hierarchical_match`). -/
structure Config where
  phoneCol : Bool
  dateCol : Bool
  tolerance : Int
deriving DecidableEq, Repr

/-- Value stored under a phone key inside a per-primary-key dict:
`True` when no date column is configured, else a list of parsed dates. -/
inductive PhoneEntry where
  | present : PhoneEntry
  | dates : List Int → PhoneEntry
deriving DecidableEq, Repr

/-- Value stored in `df2_lookup` for one primary key: `True`, a list of
parsed dates, or a dict from phones to `PhoneEntry`. -/
inductive Entry (φ : Type) where
  | present : Entry φ
  | dateList : List Int → Entry φ
  | phoneMap : List (φ × PhoneEntry) → Entry φ
deriving DecidableEq, Repr

/-- Association-list lookup, the embedding of Python dict indexing. -/
def lookupA {α β : Type} [DecidableEq α] : List (α × β) → α → Option β
  | [], _ => none
  | (a, b) :: t, k => if a = k then some b else lookupA t k

/-- Association-list update, the embedding of Python dict assignment. -/
def setA {α β : Type} [DecidableEq α] : List (α × β) → α → β → List (α × β)
  | [], k, v => [(k, v)]
  | (a, b) :: t, k, v => if a = k then (a, v) :: t else (a, b) :: setA t k v

variable {κ φ ρ σ : Type}

/-- The primary-key column of a dataset (`df[primary_key]`). -/
def pkColumn (rows : List (Row κ φ ρ)) : List κ := rows.map (fun r => r.pk)

/-- `df[primary_key].value_counts()` evaluated at one key value. -/
def value_counts [DecidableEq κ] (rows : List (Row κ φ ρ)) (k : κ) : Nat :=
  ((pkColumn rows).filter (fun x => decide (x = k))).length

/-- The keys of `counts[counts > 1].index` (lines 135-140): the distinct
primary-key values occurring more than once in the dataset. -/
def duplicated_keys [DecidableEq κ] (rows : List (Row κ φ ρ)) : List κ :=
  (pkColumn rows).dedup.filter (fun k => decide (1 < value_counts rows k))

/-- Membership in `duplicated_primary = df1_duplicated | df2_duplicated`
(line 146). -/
def isDup [DecidableEq κ] (df1 : List (Row κ φ ρ)) (df2 : List (Row κ φ σ))
    (k : κ) : Bool :=
  decide (k ∈ duplicated_keys df1) || decide (k ∈ duplicated_keys df2)

/-- `if pk not in df2_lookup: df2_lookup[pk] = e` (lines 159-160, 167-168). -/
def ensureKey [DecidableEq κ] (lk : List (κ × Entry φ)) (pk : κ) (e : Entry φ) :
    List (κ × Entry φ) :=
  match lookupA lk pk with
  | none => setA lk pk e
  | some _ => lk

/-- `df2_lookup[pk].append(d)` for the date-only shape (lines 161-162). -/
def appendDateKey [DecidableEq κ] (lk : List (κ × Entry φ)) (pk : κ) (d : Int) :
    List (κ × Entry φ) :=
  match lookupA lk pk with
  | some (Entry.dateList ds) => setA lk pk (Entry.dateList (ds ++ [d]))
  | _ => lk

/-- `if phone not in df2_lookup[pk]: df2_lookup[pk][phone] = v`
(lines 169-173). -/
def ensurePhone [DecidableEq κ] [DecidableEq φ] (lk : List (κ × Entry φ))
    (pk : κ) (ph : φ) (v : PhoneEntry) : List (κ × Entry φ) :=
  match lookupA lk pk with
  | some (Entry.phoneMap m) =>
    match lookupA m ph with
    | none => setA lk pk (Entry.phoneMap (setA m ph v))
    | some _ => lk
  | _ => lk

/-- `df2_lookup[pk][phone].append(d)` (lines 175-178). -/
def appendDatePhone [DecidableEq κ] [DecidableEq φ] (lk : List (κ × Entry φ))
    (pk : κ) (ph : φ) (d : Int) : List (κ × Entry φ) :=
  match lookupA lk pk with
  | some (Entry.phoneMap m) =>
    match lookupA m ph with
    | some (PhoneEntry.dates ds) =>
      setA lk pk (Entry.phoneMap (setA m ph (PhoneEntry.dates (ds ++ [d]))))
    | _ => lk
  | _ => lk

/-- Body of the lookup-construction loop over df2 rows (lines 151-181). -/
def addRow [DecidableEq κ] [DecidableEq φ] (cfg : Config) (dup : κ → Bool)
    (lk : List (κ × Entry φ)) (row : Row κ φ σ) : List (κ × Entry φ) :=
  let pk := row.pk
  if dup pk && (cfg.phoneCol || cfg.dateCol) then
    if !cfg.phoneCol then
      let date : Option Int := if cfg.dateCol then normalize_date row.date else none
      let lk1 := ensureKey lk pk (Entry.dateList [])
      match date with
      | some d => appendDateKey lk1 pk d
      | none => lk1
    else
      let phone := row.phone
      let lk1 := ensureKey lk pk (Entry.phoneMap [])
      let lk2 := ensurePhone lk1 pk phone
        (if cfg.dateCol then PhoneEntry.dates [] else PhoneEntry.present)
      if cfg.dateCol then
        match normalize_date row.date with
        | some d => appendDatePhone lk2 pk phone d
        | none => lk2
      else lk2
  else
    setA lk pk Entry.present

/-- `df2_lookup` after the whole construction loop (lines 149-181). -/
def buildLookup [DecidableEq κ] [DecidableEq φ] (cfg : Config) (dup : κ → Bool)
    (df2 : List (Row κ φ σ)) : List (κ × Entry φ) :=
  df2.foldl (addRow cfg dup) []

/-- The four counters of `match_levels` (lines 186-191). -/
inductive Level where
  | primary_only : Level
  | primary_phone : Level
  | primary_phone_date : Level
  | primary_date : Level
deriving DecidableEq, Repr

/-- The reason strings attached to unmatched rows, one constructor per
f-string in the script, carrying the interpolated values. -/
inductive Reason (κ φ : Type) where
  | pkNotFound : κ → Reason κ φ
  | dupDateNoMatch : κ → Int → Reason κ φ
  | dupInvalidDate : κ → Reason κ φ
  | dupPhoneNotFound : κ → φ → Reason κ φ
  | pdPhoneNotFound : κ → φ → Reason κ φ
  | pdDateNoMatch : κ → φ → Int → Reason κ φ
  | pdInvalidDate : κ → φ → Reason κ φ
deriving DecidableEq, Repr

/-- Outcome of classifying one reference row. -/
inductive RowResult (κ φ : Type) where
  | matched : Level → RowResult κ φ
  | unmatched : Reason κ φ → RowResult κ φ
deriving DecidableEq, Repr

/-- `true` exactly on matched outcomes. -/
def isMatchedB : RowResult κ φ → Bool
  | RowResult.matched _ => true
  | RowResult.unmatched _ => false

/-- Classification of one df1 row (lines 194-274): primary-key presence
check first, then the configured hierarchical branch when the key is
ambiguous, else a simple primary-only match. -/
def classifyRow [DecidableEq κ] [DecidableEq φ] (cfg : Config) (dup : κ → Bool)
    (lk : List (κ × Entry φ)) (row : Row κ φ ρ) : RowResult κ φ :=
  let pk := row.pk
  match lookupA lk pk with
  | none => RowResult.unmatched (Reason.pkNotFound pk)
  | some entry =>
    if dup pk && (cfg.phoneCol || cfg.dateCol) then
      if !cfg.phoneCol && cfg.dateCol then
        match normalize_date row.date, entry with
        | some d1, Entry.dateList ds =>
          if ds.any (fun d2 => dates_within_range (some d1) (some d2) cfg.tolerance) then
            RowResult.matched Level.primary_date
          else
            RowResult.unmatched (Reason.dupDateNoMatch pk cfg.tolerance)
        | _, _ => RowResult.unmatched (Reason.dupInvalidDate pk)
      else if cfg.phoneCol && !cfg.dateCol then
        match entry with
        | Entry.phoneMap m =>
          if (lookupA m row.phone).isSome then
            RowResult.matched Level.primary_phone
          else
            RowResult.unmatched (Reason.dupPhoneNotFound pk row.phone)
        | _ => RowResult.unmatched (Reason.dupPhoneNotFound pk row.phone)
      else
        match entry with
        | Entry.phoneMap m =>
          match lookupA m row.phone with
          | none => RowResult.unmatched (Reason.pdPhoneNotFound pk row.phone)
          | some pe =>
            match normalize_date row.date, pe with
            | some d1, PhoneEntry.dates ds =>
              if ds.any (fun d2 => dates_within_range (some d1) (some d2) cfg.tolerance) then
                RowResult.matched Level.primary_phone_date
              else
                RowResult.unmatched (Reason.pdDateNoMatch pk row.phone cfg.tolerance)
            | _, PhoneEntry.present => RowResult.matched Level.primary_phone
            | none, PhoneEntry.dates _ => RowResult.unmatched (Reason.pdInvalidDate pk row.phone)
        | _ => RowResult.unmatched (Reason.pdPhoneNotFound pk row.phone)
    else
      RowResult.matched Level.primary_only

/-- The `match_levels` counter dict (lines 186-191). -/
structure MatchLevels where
  primary_only : Nat
  primary_phone : Nat
  primary_phone_date : Nat
  primary_date : Nat
deriving DecidableEq, Repr

/-- Increment one counter (`match_levels[...] += 1`). -/
def MatchLevels.bump (ml : MatchLevels) : Level → MatchLevels
  | Level.primary_only => { ml with primary_only := ml.primary_only + 1 }
  | Level.primary_phone => { ml with primary_phone := ml.primary_phone + 1 }
  | Level.primary_phone_date => { ml with primary_phone_date := ml.primary_phone_date + 1 }
  | Level.primary_date => { ml with primary_date := ml.primary_date + 1 }

/-- Sum of the four counters. -/
def MatchLevels.total (ml : MatchLevels) : Nat :=
  ml.primary_only + ml.primary_phone + ml.primary_phone_date + ml.primary_date

/-- One record of `debug_info["unmatched_reasons"]`.  The script appends two
different dict shapes: the primary-key-absent site (lines 204-206) stores
only index, key and reason, while the ambiguous-branch site (lines 261-269)
also stores phone (if a phone column is configured, else None) and date
(if a date column is configured, else None). -/
inductive DebugEntry (κ φ : Type) where
  | pkOnly : Nat → κ → Reason κ φ → DebugEntry κ φ
  | full : Nat → κ → Option φ → Option DateVal → Reason κ φ → DebugEntry κ φ
deriving DecidableEq, Repr

/-- The `row_index` field of a diagnostic record. -/
def DebugEntry.row_index : DebugEntry κ φ → Nat
  | DebugEntry.pkOnly i _ _ => i
  | DebugEntry.full i _ _ _ _ => i

/-- Build the diagnostic record appended for an unmatched row: the
primary-key-absent reason uses the short shape of lines 204-206, every other
reason the full shape of lines 261-269. -/
def mkEntry (cfg : Config) (idx : Nat) (row : Row κ φ ρ) :
    Reason κ φ → DebugEntry κ φ
  | Reason.pkNotFound pk => DebugEntry.pkOnly idx pk (Reason.pkNotFound pk)
  | r => DebugEntry.full idx row.pk
      (if cfg.phoneCol then some row.phone else none)
      (if cfg.dateCol then some row.date else none) r

/-- Accumulated output of the matching loop: the two index lists, the
per-level counters, and `debug_info["unmatched_reasons"]`. -/
structure MatchOutput (κ φ : Type) where
  matched_indices : List Nat
  unmatched_indices : List Nat
  match_levels : MatchLevels
  unmatched_reasons : List (DebugEntry κ φ)
deriving DecidableEq, Repr

/-- Body of the classification loop (lines 194-274) for one indexed row. -/
def processRow [DecidableEq κ] [DecidableEq φ] (cfg : Config) (dup : κ → Bool)
    (lk : List (κ × Entry φ)) (debug : Bool) (st : MatchOutput κ φ)
    (p : Nat × Row κ φ ρ) : MatchOutput κ φ :=
  match classifyRow cfg dup lk p.2 with
  | RowResult.matched lvl =>
    { st with
      matched_indices := st.matched_indices ++ [p.1]
      match_levels := st.match_levels.bump lvl }
  | RowResult.unmatched r =>
    { st with
      unmatched_indices := st.unmatched_indices ++ [p.1]
      unmatched_reasons := st.unmatched_reasons ++
        (if debug then [mkEntry cfg p.1 p.2 r] else []) }

/-- The empty accumulator (lines 184-192). -/
def emptyOutput : MatchOutput κ φ := ⟨[], [], ⟨0, 0, 0, 0⟩, []⟩

/-- Embedding of `hierarchical_match` (lines 95-277): duplicate detection,
lookup construction from df2, then the classification loop over the indexed
rows of df1. -/
def hierarchical_match [DecidableEq κ] [DecidableEq φ] (cfg : Config)
    (df1 : List (Row κ φ ρ)) (df2 : List (Row κ φ σ)) (debug : Bool) :
    MatchOutput κ φ :=
  (List.enumFrom 0 df1).foldl
    (processRow cfg (isDup df1 df2) (buildLookup cfg (isDup df1 df2) df2) debug)
    emptyOutput

/-- `matched_df = df1.loc[matched_indices]` (line 276). -/
def matched_df [DecidableEq κ] [DecidableEq φ] (cfg : Config)
    (df1 : List (Row κ φ ρ)) (df2 : List (Row κ φ σ)) (debug : Bool) :
    List (Row κ φ ρ) :=
  ((hierarchical_match cfg df1 df2 debug).matched_indices).filterMap
    (fun i => df1.get? i)

/-- `unmatched_df = df1.loc[unmatched_indices]` (line 277). -/
def unmatched_df [DecidableEq κ] [DecidableEq φ] (cfg : Config)
    (df1 : List (Row κ φ ρ)) (df2 : List (Row κ φ σ)) (debug : Bool) :
    List (Row κ φ ρ) :=
  ((hierarchical_match cfg df1 df2 debug).unmatched_indices).filterMap
    (fun i => df1.get? i)

/-- `df2.any` style presence of a primary key (specification-side helper
describing the content of the lookup). -/
def hasPK [DecidableEq κ] (rows : List (Row κ φ σ)) (k : κ) : Bool :=
  rows.any (fun r => decide (r.pk = k))

/-- Presence of a (key, phone) pair in a dataset. -/
def hasPhone [DecidableEq κ] [DecidableEq φ] (rows : List (Row κ φ σ)) (k : κ)
    (ph : φ) : Bool :=
  rows.any (fun r => decide (r.pk = k) && decide (r.phone = ph))

/-- The valid parsed dates of the rows bearing a given (key, phone) pair,
in dataset order. -/
def datesForPhone [DecidableEq κ] [DecidableEq φ] (rows : List (Row κ φ σ))
    (k : κ) (ph : φ) : List Int :=
  rows.filterMap (fun r =>
    if r.pk = k ∧ r.phone = ph then normalize_date r.date else none)

/-- The valid parsed dates of the rows bearing a given key, in dataset
order. -/
def datesForKey [DecidableEq κ] (rows : List (Row κ φ σ)) (k : κ) : List Int :=
  rows.filterMap (fun r => if r.pk = k then normalize_date r.date else none)

/-- The diagnostic record the loop body produces for one indexed row: some
record when the row is unmatched, none when it matches. -/
def entryFor [DecidableEq κ] [DecidableEq φ] (cfg : Config) (dup : κ → Bool)
    (lk : List (κ × Entry φ)) (p : Nat × Row κ φ ρ) : Option (DebugEntry κ φ) :=
  match classifyRow cfg dup lk p.2 with
  | RowResult.unmatched r => some (mkEntry cfg p.1 p.2 r)
  | RowResult.matched _ => none

/-- Specification-side description of the diagnostic record for one indexed
reference row, written directly from the row's own cells: a row unmatched
because its primary key is absent gets the short record carrying the row's
key; a row unmatched at an escalated tier gets the full record carrying the
row's key, its phone value exactly when a phone column is configured, its
date value exactly when a date column is configured, and the reason; a
matched row gets no record. -/
def expectedEntry [DecidableEq κ] [DecidableEq φ] (cfg : Config) (dup : κ → Bool)
    (lk : List (κ × Entry φ)) (p : Nat × Row κ φ ρ) : Option (DebugEntry κ φ) :=
  match classifyRow cfg dup lk p.2 with
  | RowResult.matched _ => none
  | RowResult.unmatched (Reason.pkNotFound _) =>
    some (DebugEntry.pkOnly p.1 p.2.pk (Reason.pkNotFound p.2.pk))
  | RowResult.unmatched r =>
    some (DebugEntry.full p.1 p.2.pk
      (if cfg.phoneCol then some p.2.phone else none)
      (if cfg.dateCol then some p.2.date else none) r)

/-- Specification predicate: in the phone+date configuration, after the
construction loop has consumed the rows `done`, each ambiguous key maps to a
phone dict whose entries are date lists holding exactly the valid parsed
dates seen for that (key, phone). -/
def InvTT [DecidableEq κ] [DecidableEq φ] (dup : κ → Bool) (done : List (Row κ φ σ))
    (lk : List (κ × Entry φ)) : Prop :=
  ∀ pk, dup pk = true →
    (hasPK done pk = false ∧ lookupA lk pk = none) ∨
    (∃ m, lookupA lk pk = some (Entry.phoneMap m) ∧ hasPK done pk = true ∧
      ∀ ph, lookupA m ph =
        (if hasPhone done pk ph = true
         then some (PhoneEntry.dates (datesForPhone done pk ph)) else none))

/-- Specification predicate: in the phone-only configuration, each ambiguous
key maps to a phone dict with a presence flag per phone seen. -/
def InvTF [DecidableEq κ] [DecidableEq φ] (dup : κ → Bool) (done : List (Row κ φ σ))
    (lk : List (κ × Entry φ)) : Prop :=
  ∀ pk, dup pk = true →
    (hasPK done pk = false ∧ lookupA lk pk = none) ∨
    (∃ m, lookupA lk pk = some (Entry.phoneMap m) ∧ hasPK done pk = true ∧
      ∀ ph, lookupA m ph =
        (if hasPhone done pk ph = true then some PhoneEntry.present else none))

/-- Specification predicate: in the date-only configuration, each ambiguous
key maps to the list of valid parsed dates seen for it. -/
def InvFT [DecidableEq κ] [DecidableEq φ] (dup : κ → Bool) (done : List (Row κ φ σ))
    (lk : List (κ × Entry φ)) : Prop :=
  ∀ pk, dup pk = true →
    (hasPK done pk = false ∧ lookupA lk pk = none) ∨
    (lookupA lk pk = some (Entry.dateList (datesForKey done pk)) ∧ hasPK done pk = true)

/-- Which stream a message is printed to. -/
inductive OutStream where
  | stdout : OutStream
  | stderr : OutStream
deriving DecidableEq, Repr

/-- The observable effect of `validate_columns` failing (lines 59-62): the
missing columns and the available columns are printed — with plain `print`,
hence to standard output — and the process exits with status 1. -/
structure ColumnError where
  missing_cols : List String
  available : List String
  stream : OutStream
  exit_code : Nat
deriving DecidableEq, Repr

/-- Embedding of `validate_columns` (lines 56-62).  A column participates
only if truthy (non-empty); the function reports iff some configured column
is absent from the schema. -/
def validate_columns (schema columns : List String) : Option ColumnError :=
  let missing_cols := columns.filter
    (fun c => !(decide (c = "")) && !(decide (c ∈ schema)))
  if missing_cols = [] then none
  else some { missing_cols := missing_cols, available := schema,
              stream := OutStream.stdout, exit_code := 1 }

/-- The column-name arguments of `hierarchical_match`. -/
structure ColumnConfig where
  primary : String
  phone : Option String
  date : Option String
deriving DecidableEq, Repr

/-- `if phone_col: cols_to_validate.append(phone_col)` — only truthy
(present and non-empty) names are appended. -/
def truthyOpt : Option String → List String
  | none => []
  | some s => if s = "" then [] else [s]

/-- `cols_to_validate` (lines 117-121). -/
def cols_to_validate (cc : ColumnConfig) : List String :=
  [cc.primary] ++ truthyOpt cc.phone ++ truthyOpt cc.date

/-- The column-validation phase of `hierarchical_match` (lines 123-124):
df1 is validated first; `sys.exit` inside the first call prevents the
second from running. -/
def match_validation (cc : ColumnConfig) (schema1 schema2 : List String) :
    Option ColumnError :=
  match validate_columns schema1 (cols_to_validate cc) with
  | some e => some e
  | none => validate_columns schema2 (cols_to_validate cc)

/-- Observable outcome of `read_file` (lines 20-36). -/
inductive ReadOutcome where
  | fileNotFound : ReadOutcome
  | unsupportedFormat : String → ReadOutcome
  | okExcel : ReadOutcome
  | okCsv : ReadOutcome
deriving DecidableEq, Repr

/-- `str.lower()` on an extension, character by character. -/
def lower (s : String) : String := String.mk (s.data.map Char.toLower)

/-- Embedding of `read_file`: existence check first, then dispatch on the
lower-cased extension. -/
def read_file (pathExists : Bool) (suffix : String) : ReadOutcome :=
  if !pathExists then ReadOutcome.fileNotFound
  else
    let extension := lower suffix
    if extension = ".xlsx" || extension = ".xls" then ReadOutcome.okExcel
    else if extension = ".csv" then ReadOutcome.okCsv
    else ReadOutcome.unsupportedFormat extension

end HierKeyMatch

namespace HierKeyMatch

variable {κ φ ρ σ : Type}

theorem lookupA_setA {α β : Type} [DecidableEq α] (m : List (α × β)) (k j : α) (v : β) :
    lookupA (setA m k v) j = if k = j then some v else lookupA m j := by
  induction m with
  | nil => simp [setA, lookupA]
  | cons hd tl ih =>
    obtain ⟨a, b⟩ := hd
    by_cases hak : a = k
    · subst hak
      by_cases haj : a = j <;> simp [setA, lookupA, haj]
    · by_cases haj : a = j
      · subst haj
        have hkj : ¬ k = a := fun h => hak h.symm
        simp [setA, lookupA, hak, hkj]
      · simp [setA, lookupA, hak, haj, ih]

theorem lookupA_setA_self {α β : Type} [DecidableEq α] (m : List (α × β)) (k : α) (v : β) :
    lookupA (setA m k v) k = some v := by
  simp [lookupA_setA]

theorem lookupA_setA_ne {α β : Type} [DecidableEq α] (m : List (α × β)) (k j : α) (v : β)
    (h : k ≠ j) : lookupA (setA m k v) j = lookupA m j := by
  simp [lookupA_setA, if_neg h]

theorem hasPK_append (rows : List (Row κ φ σ)) (r : Row κ φ σ) (k : κ) [DecidableEq κ] :
    hasPK (rows ++ [r]) k = (hasPK rows k || decide (r.pk = k)) := by
  simp [hasPK]

theorem hasPhone_append [DecidableEq κ] [DecidableEq φ] (rows : List (Row κ φ σ))
    (r : Row κ φ σ) (k : κ) (ph : φ) :
    hasPhone (rows ++ [r]) k ph
      = (hasPhone rows k ph || (decide (r.pk = k) && decide (r.phone = ph))) := by
  simp [hasPhone]

theorem datesForPhone_append [DecidableEq κ] [DecidableEq φ] (rows : List (Row κ φ σ))
    (r : Row κ φ σ) (k : κ) (ph : φ) :
    datesForPhone (rows ++ [r]) k ph
      = datesForPhone rows k ph ++
        (if r.pk = k ∧ r.phone = ph then (normalize_date r.date).toList else []) := by
  simp only [datesForPhone, List.filterMap_append]
  congr 1
  by_cases h : r.pk = k ∧ r.phone = ph
  · simp [List.filterMap, h]
    cases normalize_date r.date <;> simp [Option.toList]
  · simp [List.filterMap, h]

theorem datesForKey_append [DecidableEq κ] (rows : List (Row κ φ σ))
    (r : Row κ φ σ) (k : κ) :
    datesForKey (rows ++ [r]) k
      = datesForKey rows k ++ (if r.pk = k then (normalize_date r.date).toList else []) := by
  simp only [datesForKey, List.filterMap_append]
  congr 1
  by_cases h : r.pk = k
  · simp [List.filterMap, h]
    cases normalize_date r.date <;> simp [Option.toList]
  · simp [List.filterMap, h]

theorem hasPK_iff [DecidableEq κ] (rows : List (Row κ φ σ)) (k : κ) :
    hasPK rows k = true ↔ ∃ r ∈ rows, r.pk = k := by
  simp [hasPK, List.any_eq_true]

theorem hasPhone_iff [DecidableEq κ] [DecidableEq φ] (rows : List (Row κ φ σ))
    (k : κ) (ph : φ) :
    hasPhone rows k ph = true ↔ ∃ r ∈ rows, r.pk = k ∧ r.phone = ph := by
  simp [hasPhone, List.any_eq_true]

theorem hasPhone_imp_hasPK [DecidableEq κ] [DecidableEq φ] (rows : List (Row κ φ σ))
    (k : κ) (ph : φ) (h : hasPhone rows k ph = true) : hasPK rows k = true := by
  rw [hasPhone_iff] at h
  rw [hasPK_iff]
  obtain ⟨r, hr, h1, _⟩ := h
  exact ⟨r, hr, h1⟩

theorem hasPhone_false_of_hasPK_false [DecidableEq κ] [DecidableEq φ]
    (rows : List (Row κ φ σ)) (k : κ) (ph : φ) (h : hasPK rows k = false) :
    hasPhone rows k ph = false := by
  by_contra hc
  rw [Bool.not_eq_false] at hc
  rw [hasPhone_imp_hasPK rows k ph hc] at h
  cases h

theorem mem_datesForPhone [DecidableEq κ] [DecidableEq φ] (rows : List (Row κ φ σ))
    (k : κ) (ph : φ) (d : Int) :
    d ∈ datesForPhone rows k ph
      ↔ ∃ r ∈ rows, r.pk = k ∧ r.phone = ph ∧ normalize_date r.date = some d := by
  simp only [datesForPhone, List.mem_filterMap]
  constructor
  · rintro ⟨r, hr, hd⟩
    by_cases h : r.pk = k ∧ r.phone = ph
    · rw [if_pos h] at hd
      exact ⟨r, hr, h.1, h.2, hd⟩
    · rw [if_neg h] at hd
      cases hd
  · rintro ⟨r, hr, h1, h2, h3⟩
    exact ⟨r, hr, by rw [if_pos ⟨h1, h2⟩]; exact h3⟩

theorem mem_datesForKey [DecidableEq κ] (rows : List (Row κ φ σ)) (k : κ) (d : Int) :
    d ∈ datesForKey rows k ↔ ∃ r ∈ rows, r.pk = k ∧ normalize_date r.date = some d := by
  simp only [datesForKey, List.mem_filterMap]
  constructor
  · rintro ⟨r, hr, hd⟩
    by_cases h : r.pk = k
    · rw [if_pos h] at hd
      exact ⟨r, hr, h, hd⟩
    · rw [if_neg h] at hd
      cases hd
  · rintro ⟨r, hr, h1, h3⟩
    exact ⟨r, hr, by rw [if_pos h1]; exact h3⟩

theorem datesForPhone_nil_of_hasPK_false [DecidableEq κ] [DecidableEq φ]
    (rows : List (Row κ φ σ)) (k : κ) (ph : φ) (h : hasPK rows k = false) :
    datesForPhone rows k ph = [] := by
  rw [List.eq_nil_iff_forall_not_mem]
  intro d hd
  rw [mem_datesForPhone] at hd
  obtain ⟨r, hr, h1, _, _⟩ := hd
  have : hasPK rows k = true := (hasPK_iff rows k).2 ⟨r, hr, h1⟩
  rw [this] at h
  cases h

theorem mem_pkColumn_of_count [DecidableEq κ] (rows : List (Row κ φ ρ)) (k : κ)
    (h : 1 < value_counts rows k) : k ∈ pkColumn rows := by
  unfold value_counts at h
  have hpos : 0 < ((pkColumn rows).filter (fun x => decide (x = k))).length :=
    Nat.lt_of_lt_of_le Nat.zero_lt_one (Nat.le_of_lt h)
  rw [List.length_pos] at hpos
  obtain ⟨x, hx⟩ := List.exists_mem_of_ne_nil _ hpos
  have := List.mem_filter.1 hx
  have hxk : x = k := by simpa using this.2
  rw [hxk] at this
  exact this.1

theorem mem_duplicated_keys_iff [DecidableEq κ] (rows : List (Row κ φ ρ)) (k : κ) :
    k ∈ duplicated_keys rows ↔ 1 < value_counts rows k := by
  unfold duplicated_keys
  rw [List.mem_filter]
  constructor
  · rintro ⟨_, h⟩
    simpa using h
  · intro h
    exact ⟨List.mem_dedup.2 (mem_pkColumn_of_count rows k h), by simpa using h⟩

theorem isDup_iff [DecidableEq κ] (df1 : List (Row κ φ ρ)) (df2 : List (Row κ φ σ)) (k : κ) :
    isDup df1 df2 k = true ↔ 1 < value_counts df1 k ∨ 1 < value_counts df2 k := by
  unfold isDup
  rw [Bool.or_eq_true]
  simp only [decide_eq_true_eq]
  rw [mem_duplicated_keys_iff, mem_duplicated_keys_iff]

theorem isDup_false_of_counts [DecidableEq κ] (df1 : List (Row κ φ ρ))
    (df2 : List (Row κ φ σ)) (k : κ) (h1 : value_counts df1 k ≤ 1)
    (h2 : value_counts df2 k ≤ 1) : isDup df1 df2 k = false := by
  by_contra hc
  rw [Bool.not_eq_false, isDup_iff] at hc
  rcases hc with h | h
  · exact absurd h1 (Nat.not_le_of_lt h)
  · exact absurd h2 (Nat.not_le_of_lt h)

end HierKeyMatch

namespace HierKeyMatch

variable {κ φ ρ σ : Type}

theorem bump_total (ml : MatchLevels) (lvl : Level) :
    (ml.bump lvl).total = ml.total + 1 := by
  cases lvl <;> simp [MatchLevels.bump, MatchLevels.total] <;> omega

theorem foldl_matched [DecidableEq κ] [DecidableEq φ] (cfg : Config) (dup : κ → Bool)
    (lk : List (κ × Entry φ)) (debug : Bool) :
    ∀ (l : List (Nat × Row κ φ ρ)) (st : MatchOutput κ φ),
      (l.foldl (processRow cfg dup lk debug) st).matched_indices
        = st.matched_indices
          ++ (l.filter (fun p => isMatchedB (classifyRow cfg dup lk p.2))).map Prod.fst := by
  intro l
  induction l with
  | nil => intro st; simp
  | cons p t ih =>
    intro st
    rw [List.foldl_cons, ih]
    cases hc : classifyRow cfg dup lk p.2 with
    | matched lvl => simp [processRow, hc, isMatchedB, List.filter_cons]
    | unmatched r => simp [processRow, hc, isMatchedB, List.filter_cons]

theorem foldl_unmatched [DecidableEq κ] [DecidableEq φ] (cfg : Config) (dup : κ → Bool)
    (lk : List (κ × Entry φ)) (debug : Bool) :
    ∀ (l : List (Nat × Row κ φ ρ)) (st : MatchOutput κ φ),
      (l.foldl (processRow cfg dup lk debug) st).unmatched_indices
        = st.unmatched_indices
          ++ (l.filter (fun p => !isMatchedB (classifyRow cfg dup lk p.2))).map Prod.fst := by
  intro l
  induction l with
  | nil => intro st; simp
  | cons p t ih =>
    intro st
    rw [List.foldl_cons, ih]
    cases hc : classifyRow cfg dup lk p.2 with
    | matched lvl => simp [processRow, hc, isMatchedB, List.filter_cons]
    | unmatched r => simp [processRow, hc, isMatchedB, List.filter_cons]

theorem foldl_levels_total [DecidableEq κ] [DecidableEq φ] (cfg : Config) (dup : κ → Bool)
    (lk : List (κ × Entry φ)) (debug : Bool) :
    ∀ (l : List (Nat × Row κ φ ρ)) (st : MatchOutput κ φ),
      (l.foldl (processRow cfg dup lk debug) st).match_levels.total
        = st.match_levels.total
          + (l.filter (fun p => isMatchedB (classifyRow cfg dup lk p.2))).length := by
  intro l
  induction l with
  | nil => intro st; simp
  | cons p t ih =>
    intro st
    rw [List.foldl_cons, ih]
    cases hc : classifyRow cfg dup lk p.2 with
    | matched lvl =>
      simp [processRow, hc, isMatchedB, List.filter_cons, bump_total]
      omega
    | unmatched r => simp [processRow, hc, isMatchedB, List.filter_cons]

theorem mkEntry_row_index [DecidableEq κ] [DecidableEq φ] (cfg : Config) (idx : Nat)
    (row : Row κ φ ρ) (r : Reason κ φ) : (mkEntry cfg idx row r).row_index = idx := by
  cases r <;> rfl

theorem foldl_reasons [DecidableEq κ] [DecidableEq φ] (cfg : Config) (dup : κ → Bool)
    (lk : List (κ × Entry φ)) :
    ∀ (l : List (Nat × Row κ φ ρ)) (st : MatchOutput κ φ),
      (l.foldl (processRow cfg dup lk true) st).unmatched_reasons
        = st.unmatched_reasons ++ l.filterMap (entryFor cfg dup lk) := by
  intro l
  induction l with
  | nil => intro st; simp
  | cons p t ih =>
    intro st
    rw [List.foldl_cons, ih]
    cases hc : classifyRow cfg dup lk p.2 with
    | matched lvl => simp [processRow, hc, entryFor, List.filterMap_cons]
    | unmatched r => simp [processRow, hc, entryFor, List.filterMap_cons]

theorem map_row_index_entryFor [DecidableEq κ] [DecidableEq φ] (cfg : Config)
    (dup : κ → Bool) (lk : List (κ × Entry φ)) :
    ∀ (l : List (Nat × Row κ φ ρ)),
      (l.filterMap (entryFor cfg dup lk)).map DebugEntry.row_index
        = (l.filter (fun p => !isMatchedB (classifyRow cfg dup lk p.2))).map Prod.fst := by
  intro l
  induction l with
  | nil => simp
  | cons p t ih =>
    cases hc : classifyRow cfg dup lk p.2 with
    | matched lvl =>
      simp [List.filterMap_cons, List.filter_cons, entryFor, hc, isMatchedB, ih]
    | unmatched r =>
      simp [List.filterMap_cons, List.filter_cons, entryFor, hc, isMatchedB, ih,
        mkEntry_row_index]

theorem mkEntry_shape [DecidableEq κ] [DecidableEq φ] (cfg : Config) (idx : Nat)
    (row : Row κ φ ρ) (r : Reason κ φ) :
    (∃ pk, mkEntry cfg idx row r = DebugEntry.pkOnly idx pk (Reason.pkNotFound pk)) ∨
    (∃ oph odv, mkEntry cfg idx row r = DebugEntry.full idx row.pk oph odv r ∧
      oph.isSome = cfg.phoneCol ∧ odv.isSome = cfg.dateCol) := by
  cases r <;>
    first
    | exact Or.inl ⟨_, rfl⟩
    | exact Or.inr ⟨_, _, rfl, by cases hp : cfg.phoneCol <;> simp [hp],
        by cases hd : cfg.dateCol <;> simp [hd]⟩

theorem filter_length_split {α : Type} (l : List α) (q : α → Bool) :
    (l.filter q).length + (l.filter (fun x => !q x)).length = l.length := by
  induction l with
  | nil => rfl
  | cons a t ih =>
    by_cases h : q a = true <;> simp [List.filter_cons, h] <;> omega

theorem mem_map_fst_filter_enumFrom (q : Nat × Row κ φ ρ → Bool) :
    ∀ (l : List (Row κ φ ρ)) (n i : Nat),
      (i ∈ (((List.enumFrom n l).filter q).map Prod.fst)
        ↔ ∃ j, ∃ hj : j < l.length, i = n + j ∧ q (n + j, l.get ⟨j, hj⟩) = true) := by
  intro l
  induction l with
  | nil => intro n i; simp [List.enumFrom]
  | cons a t ih =>
    intro n i
    have hunf : List.enumFrom n (a :: t) = (n, a) :: List.enumFrom (n + 1) t := rfl
    rw [hunf]
    by_cases hq : q (n, a) = true
    · rw [List.filter_cons_of_pos hq, List.map_cons, List.mem_cons, ih (n + 1) i]
      constructor
      · rintro (rfl | ⟨j, hj, rfl, hqj⟩)
        · exact ⟨0, Nat.succ_pos _, by omega, by simpa using hq⟩
        · refine ⟨j + 1, by simp only [List.length_cons]; omega, by omega, ?_⟩
          have harith : n + (j + 1) = n + 1 + j := by omega
          rw [harith]
          simpa using hqj
      · rintro ⟨j, hj, rfl, hqj⟩
        cases j with
        | zero => left; omega
        | succ jj =>
          right
          refine ⟨jj, by simp only [List.length_cons] at hj; omega, by omega, ?_⟩
          have harith : n + (jj + 1) = n + 1 + jj := by omega
          rw [harith] at hqj
          simpa using hqj
    · rw [List.filter_cons_of_neg hq, ih (n + 1) i]
      constructor
      · rintro ⟨j, hj, rfl, hqj⟩
        refine ⟨j + 1, by simp only [List.length_cons]; omega, by omega, ?_⟩
        have harith : n + (j + 1) = n + 1 + j := by omega
        rw [harith]
        simpa using hqj
      · rintro ⟨j, hj, rfl, hqj⟩
        cases j with
        | zero =>
          exfalso
          apply hq
          simpa using hqj
        | succ jj =>
          refine ⟨jj, by simp only [List.length_cons] at hj; omega, by omega, ?_⟩
          have harith : n + (jj + 1) = n + 1 + jj := by omega
          rw [harith] at hqj
          simpa using hqj

end HierKeyMatch

namespace HierKeyMatch

variable {κ φ ρ σ : Type}

theorem mem_matched_iff [DecidableEq κ] [DecidableEq φ] (cfg : Config)
    (df1 : List (Row κ φ ρ)) (df2 : List (Row κ φ σ)) (debug : Bool) (i : Nat) :
    i ∈ (hierarchical_match cfg df1 df2 debug).matched_indices
      ↔ ∃ hi : i < df1.length,
          isMatchedB (classifyRow cfg (isDup df1 df2)
            (buildLookup cfg (isDup df1 df2) df2) (df1.get ⟨i, hi⟩)) = true := by
  unfold hierarchical_match
  rw [foldl_matched]
  simp only [emptyOutput, List.nil_append]
  rw [mem_map_fst_filter_enumFrom]
  constructor
  · rintro ⟨j, hj, rfl, hq⟩
    exact ⟨by omega, by simpa using hq⟩
  · rintro ⟨hi, hq⟩
    exact ⟨i, hi, by omega, by simpa using hq⟩

theorem mem_unmatched_iff [DecidableEq κ] [DecidableEq φ] (cfg : Config)
    (df1 : List (Row κ φ ρ)) (df2 : List (Row κ φ σ)) (debug : Bool) (i : Nat) :
    i ∈ (hierarchical_match cfg df1 df2 debug).unmatched_indices
      ↔ ∃ hi : i < df1.length,
          isMatchedB (classifyRow cfg (isDup df1 df2)
            (buildLookup cfg (isDup df1 df2) df2) (df1.get ⟨i, hi⟩)) = false := by
  unfold hierarchical_match
  rw [foldl_unmatched]
  simp only [emptyOutput, List.nil_append]
  rw [mem_map_fst_filter_enumFrom]
  constructor
  · rintro ⟨j, hj, rfl, hq⟩
    refine ⟨by omega, ?_⟩
    have := hq
    simp at this
    simpa using this
  · rintro ⟨hi, hq⟩
    refine ⟨i, hi, by omega, ?_⟩
    simp
    simpa using hq

theorem match_lengths [DecidableEq κ] [DecidableEq φ] (cfg : Config)
    (df1 : List (Row κ φ ρ)) (df2 : List (Row κ φ σ)) (debug : Bool) :
    (hierarchical_match cfg df1 df2 debug).matched_indices.length
      + (hierarchical_match cfg df1 df2 debug).unmatched_indices.length
      = df1.length := by
  unfold hierarchical_match
  rw [foldl_matched, foldl_unmatched]
  simp only [emptyOutput, List.nil_append, List.length_map]
  rw [filter_length_split]
  simp [List.enumFrom_length]

theorem levels_total_eq [DecidableEq κ] [DecidableEq φ] (cfg : Config)
    (df1 : List (Row κ φ ρ)) (df2 : List (Row κ φ σ)) (debug : Bool) :
    (hierarchical_match cfg df1 df2 debug).match_levels.total
      = (hierarchical_match cfg df1 df2 debug).matched_indices.length := by
  unfold hierarchical_match
  rw [foldl_levels_total, foldl_matched]
  simp [emptyOutput, MatchLevels.total]

theorem ensureKey_ne [DecidableEq κ] (lk : List (κ × Entry φ)) (pk k : κ) (e : Entry φ)
    (hk : pk ≠ k) : lookupA (ensureKey lk pk e) k = lookupA lk k := by
  unfold ensureKey
  cases hc : lookupA lk pk <;> simp [lookupA_setA_ne _ _ _ _ hk]

theorem appendDateKey_ne [DecidableEq κ] (lk : List (κ × Entry φ)) (pk k : κ) (d : Int)
    (hk : pk ≠ k) : lookupA (appendDateKey lk pk d) k = lookupA lk k := by
  unfold appendDateKey
  cases hc : lookupA lk pk with
  | none => rfl
  | some e => cases e <;> simp [lookupA_setA_ne _ _ _ _ hk]

theorem ensurePhone_ne [DecidableEq κ] [DecidableEq φ] (lk : List (κ × Entry φ))
    (pk k : κ) (ph : φ) (v : PhoneEntry) (hk : pk ≠ k) :
    lookupA (ensurePhone lk pk ph v) k = lookupA lk k := by
  unfold ensurePhone
  cases hc : lookupA lk pk with
  | none => rfl
  | some e =>
    cases e with
    | present => rfl
    | dateList ds => rfl
    | phoneMap m => cases hm : lookupA m ph <;> simp [hm, lookupA_setA_ne _ _ _ _ hk]

theorem appendDatePhone_ne [DecidableEq κ] [DecidableEq φ] (lk : List (κ × Entry φ))
    (pk k : κ) (ph : φ) (d : Int) (hk : pk ≠ k) :
    lookupA (appendDatePhone lk pk ph d) k = lookupA lk k := by
  unfold appendDatePhone
  cases hc : lookupA lk pk with
  | none => rfl
  | some e =>
    cases e with
    | present => rfl
    | dateList ds => rfl
    | phoneMap m =>
      cases hm : lookupA m ph with
      | none => simp [hm]
      | some pe => cases pe <;> simp [hm, lookupA_setA_ne _ _ _ _ hk]

theorem addRow_ne [DecidableEq κ] [DecidableEq φ] (cfg : Config) (dup : κ → Bool)
    (lk : List (κ × Entry φ)) (row : Row κ φ σ) (k : κ) (hk : row.pk ≠ k) :
    lookupA (addRow cfg dup lk row) k = lookupA lk k := by
  unfold addRow
  by_cases h1 : (dup row.pk && (cfg.phoneCol || cfg.dateCol)) = true
  · rw [if_pos h1]
    by_cases h2 : cfg.phoneCol = true
    · rw [if_neg (by simp [h2] : ¬ (!cfg.phoneCol) = true)]
      by_cases h3 : cfg.dateCol = true
      · rw [if_pos h3]
        cases hd : normalize_date row.date with
        | none =>
          rw [ensurePhone_ne _ _ _ _ _ hk, ensureKey_ne _ _ _ _ hk]
        | some d =>
          rw [appendDatePhone_ne _ _ _ _ _ hk, ensurePhone_ne _ _ _ _ _ hk,
            ensureKey_ne _ _ _ _ hk]
      · rw [if_neg h3]
        rw [ensurePhone_ne _ _ _ _ _ hk, ensureKey_ne _ _ _ _ hk]
    · have h2' : cfg.phoneCol = false := by
        cases hcp : cfg.phoneCol
        · rfl
        · exact absurd hcp h2
      rw [if_pos (by simp [h2'] : (!cfg.phoneCol) = true)]
      cases hd : (if cfg.dateCol = true then normalize_date row.date else none) with
      | none => rw [ensureKey_ne _ _ _ _ hk]
      | some d =>
        rw [appendDateKey_ne _ _ _ _ hk, ensureKey_ne _ _ _ _ hk]
  · rw [if_neg h1]
    exact lookupA_setA_ne _ _ _ _ hk

end HierKeyMatch

namespace HierKeyMatch

variable {κ φ ρ σ : Type}

theorem setA_setA {α β : Type} [DecidableEq α] (m : List (α × β)) (k : α) (v w : β) :
    setA (setA m k v) k w = setA m k w := by
  induction m with
  | nil => simp [setA]
  | cons hd tl ih =>
    obtain ⟨a, b⟩ := hd
    by_cases hak : a = k
    · simp [setA, hak]
    · simp [setA, hak, ih]

theorem ensureKey_none [DecidableEq κ] (lk : List (κ × Entry φ)) (pk : κ) (e : Entry φ)
    (h : lookupA lk pk = none) : ensureKey lk pk e = setA lk pk e := by
  unfold ensureKey
  rw [h]

theorem ensureKey_some [DecidableEq κ] (lk : List (κ × Entry φ)) (pk : κ) (e e0 : Entry φ)
    (h : lookupA lk pk = some e0) : ensureKey lk pk e = lk := by
  unfold ensureKey
  rw [h]

theorem ensurePhone_sets [DecidableEq κ] [DecidableEq φ] (lk : List (κ × Entry φ))
    (pk : κ) (ph : φ) (v : PhoneEntry) (m : List (φ × PhoneEntry))
    (h : lookupA lk pk = some (Entry.phoneMap m)) (hm : lookupA m ph = none) :
    ensurePhone lk pk ph v = setA lk pk (Entry.phoneMap (setA m ph v)) := by
  unfold ensurePhone
  simp [h, hm]

theorem ensurePhone_skip [DecidableEq κ] [DecidableEq φ] (lk : List (κ × Entry φ))
    (pk : κ) (ph : φ) (v pe : PhoneEntry) (m : List (φ × PhoneEntry))
    (h : lookupA lk pk = some (Entry.phoneMap m)) (hm : lookupA m ph = some pe) :
    ensurePhone lk pk ph v = lk := by
  unfold ensurePhone
  simp [h, hm]

theorem appendDatePhone_app [DecidableEq κ] [DecidableEq φ] (lk : List (κ × Entry φ))
    (pk : κ) (ph : φ) (d : Int) (ds : List Int) (m : List (φ × PhoneEntry))
    (h : lookupA lk pk = some (Entry.phoneMap m))
    (hm : lookupA m ph = some (PhoneEntry.dates ds)) :
    appendDatePhone lk pk ph d
      = setA lk pk (Entry.phoneMap (setA m ph (PhoneEntry.dates (ds ++ [d])))) := by
  unfold appendDatePhone
  simp [h, hm]

theorem appendDateKey_app [DecidableEq κ] (lk : List (κ × Entry φ)) (pk : κ)
    (d : Int) (ds : List Int) (h : lookupA lk pk = some (Entry.dateList ds)) :
    appendDateKey lk pk d = setA lk pk (Entry.dateList (ds ++ [d])) := by
  unfold appendDateKey
  rw [h]

theorem datesForPhone_nil_of_hasPhone_false [DecidableEq κ] [DecidableEq φ]
    (rows : List (Row κ φ σ)) (k : κ) (ph : φ) (h : hasPhone rows k ph = false) :
    datesForPhone rows k ph = [] := by
  rw [List.eq_nil_iff_forall_not_mem]
  intro d hd
  rw [mem_datesForPhone] at hd
  obtain ⟨r, hr, h1, h2, _⟩ := hd
  have : hasPhone rows k ph = true := (hasPhone_iff rows k ph).2 ⟨r, hr, h1, h2⟩
  rw [this] at h
  cases h

theorem addRow_TT_unfold [DecidableEq κ] [DecidableEq φ] (tol : Int) (dup : κ → Bool)
    (lk : List (κ × Entry φ)) (r : Row κ φ σ) (hr : dup r.pk = true) :
    addRow ⟨true, true, tol⟩ dup lk r
      = (match normalize_date r.date with
         | some d =>
           appendDatePhone
             (ensurePhone (ensureKey lk r.pk (Entry.phoneMap [])) r.pk r.phone
               (PhoneEntry.dates [])) r.pk r.phone d
         | none =>
           ensurePhone (ensureKey lk r.pk (Entry.phoneMap [])) r.pk r.phone
             (PhoneEntry.dates [])) := by
  unfold addRow
  simp [hr]

theorem addRow_TF_unfold [DecidableEq κ] [DecidableEq φ] (tol : Int) (dup : κ → Bool)
    (lk : List (κ × Entry φ)) (r : Row κ φ σ) (hr : dup r.pk = true) :
    addRow ⟨true, false, tol⟩ dup lk r
      = ensurePhone (ensureKey lk r.pk (Entry.phoneMap [])) r.pk r.phone
          PhoneEntry.present := by
  unfold addRow
  simp [hr]

theorem addRow_FT_unfold [DecidableEq κ] [DecidableEq φ] (tol : Int) (dup : κ → Bool)
    (lk : List (κ × Entry φ)) (r : Row κ φ σ) (hr : dup r.pk = true) :
    addRow ⟨false, true, tol⟩ dup lk r
      = (match normalize_date r.date with
         | some d => appendDateKey (ensureKey lk r.pk (Entry.dateList [])) r.pk d
         | none => ensureKey lk r.pk (Entry.dateList [])) := by
  unfold addRow
  simp [hr]

theorem addRow_notDup_unfold [DecidableEq κ] [DecidableEq φ] (cfg : Config)
    (dup : κ → Bool) (lk : List (κ × Entry φ)) (r : Row κ φ σ)
    (hr : dup r.pk = false) : addRow cfg dup lk r = setA lk r.pk Entry.present := by
  unfold addRow
  simp [hr]

theorem addRow_TT_some [DecidableEq κ] [DecidableEq φ] (tol : Int) (dup : κ → Bool)
    (lk : List (κ × Entry φ)) (r : Row κ φ σ) (hr : dup r.pk = true) (d : Int)
    (nd : normalize_date r.date = some d) :
    addRow ⟨true, true, tol⟩ dup lk r
      = appendDatePhone
          (ensurePhone (ensureKey lk r.pk (Entry.phoneMap [])) r.pk r.phone
            (PhoneEntry.dates [])) r.pk r.phone d := by
  rw [addRow_TT_unfold tol dup lk r hr, nd]

theorem addRow_TT_none [DecidableEq κ] [DecidableEq φ] (tol : Int) (dup : κ → Bool)
    (lk : List (κ × Entry φ)) (r : Row κ φ σ) (hr : dup r.pk = true)
    (nd : normalize_date r.date = none) :
    addRow ⟨true, true, tol⟩ dup lk r
      = ensurePhone (ensureKey lk r.pk (Entry.phoneMap [])) r.pk r.phone
          (PhoneEntry.dates []) := by
  rw [addRow_TT_unfold tol dup lk r hr, nd]

theorem addRow_FT_some [DecidableEq κ] [DecidableEq φ] (tol : Int) (dup : κ → Bool)
    (lk : List (κ × Entry φ)) (r : Row κ φ σ) (hr : dup r.pk = true) (d : Int)
    (nd : normalize_date r.date = some d) :
    addRow ⟨false, true, tol⟩ dup lk r
      = appendDateKey (ensureKey lk r.pk (Entry.dateList [])) r.pk d := by
  rw [addRow_FT_unfold tol dup lk r hr, nd]

theorem addRow_FT_none [DecidableEq κ] [DecidableEq φ] (tol : Int) (dup : κ → Bool)
    (lk : List (κ × Entry φ)) (r : Row κ φ σ) (hr : dup r.pk = true)
    (nd : normalize_date r.date = none) :
    addRow ⟨false, true, tol⟩ dup lk r
      = ensureKey lk r.pk (Entry.dateList []) := by
  rw [addRow_FT_unfold tol dup lk r hr, nd]

end HierKeyMatch

namespace HierKeyMatch

variable {κ φ ρ σ : Type}

theorem invTT_char_update [DecidableEq κ] [DecidableEq φ]
    (done : List (Row κ φ σ)) (r : Row κ φ σ) (m2 : List (φ × PhoneEntry))
    (hB : ∀ ph, lookupA m2 ph =
      (if r.phone = ph
       then some (PhoneEntry.dates
         (datesForPhone done r.pk r.phone ++ (normalize_date r.date).toList))
       else (if hasPhone done r.pk ph = true
             then some (PhoneEntry.dates (datesForPhone done r.pk ph)) else none))) :
    ∀ ph, lookupA m2 ph =
      (if hasPhone (done ++ [r]) r.pk ph = true
       then some (PhoneEntry.dates (datesForPhone (done ++ [r]) r.pk ph)) else none) := by
  intro ph
  rw [hB ph, hasPhone_append, datesForPhone_append]
  by_cases hph : r.phone = ph
  · subst hph
    simp
  · have h1 : (decide (r.pk = r.pk) && decide (r.phone = ph)) = false := by simp [hph]
    rw [h1]
    have h2 : ¬(r.pk = r.pk ∧ r.phone = ph) := fun hc => hph hc.2
    rw [if_neg h2]
    simp [hph]

theorem addRow_InvTT [DecidableEq κ] [DecidableEq φ] (tol : Int) (dup : κ → Bool)
    (done : List (Row κ φ σ)) (lk : List (κ × Entry φ)) (r : Row κ φ σ)
    (h : InvTT dup done lk) :
    InvTT dup (done ++ [r]) (addRow ⟨true, true, tol⟩ dup lk r) := by
  intro pk hpk
  by_cases hpkr : r.pk = pk
  case neg =>
    have hlk : lookupA (addRow ⟨true, true, tol⟩ dup lk r) pk = lookupA lk pk :=
      addRow_ne _ _ _ _ _ hpkr
    rcases h pk hpk with ⟨hf, hn⟩ | ⟨m, hm, hp, hchar⟩
    · left
      refine ⟨?_, by rw [hlk]; exact hn⟩
      rw [hasPK_append]
      simp [hf, hpkr]
    · right
      refine ⟨m, by rw [hlk]; exact hm, ?_, ?_⟩
      · rw [hasPK_append]
        simp [hp]
      · intro ph
        rw [hasPhone_append, datesForPhone_append]
        have hd1 : (decide (r.pk = pk) && decide (r.phone = ph)) = false := by simp [hpkr]
        have hd2 : ¬ (r.pk = pk ∧ r.phone = ph) := fun hc => hpkr hc.1
        rw [hd1, if_neg hd2]
        simpa using hchar ph
  case pos =>
    subst hpkr
    have hp2 : hasPK (done ++ [r]) r.pk = true := by
      rw [hasPK_append]
      simp
    rcases h r.pk hpk with ⟨hf, hn⟩ | ⟨m, hm, hp, hchar⟩
    · -- key not seen yet: fresh phone map
      have e1 : ensureKey lk r.pk (Entry.phoneMap []) = setA lk r.pk (Entry.phoneMap []) :=
        ensureKey_none _ _ _ hn
      have l1 : lookupA (setA lk r.pk (Entry.phoneMap [])) r.pk = some (Entry.phoneMap []) :=
        lookupA_setA_self _ _ _
      have e2 : ensurePhone (setA lk r.pk (Entry.phoneMap [])) r.pk r.phone
          (PhoneEntry.dates [])
          = setA lk r.pk (Entry.phoneMap [(r.phone, PhoneEntry.dates [])]) := by
        rw [ensurePhone_sets _ _ _ _ [] l1 rfl, setA_setA]
        rfl
      have hdone0 : datesForPhone done r.pk r.phone = [] :=
        datesForPhone_nil_of_hasPhone_false _ _ _
          (hasPhone_false_of_hasPK_false _ _ _ hf)
      have hphonef : ∀ ph, hasPhone done r.pk ph = false :=
        fun ph => hasPhone_false_of_hasPK_false _ _ _ hf
      cases nd : normalize_date r.date with
      | none =>
        rw [addRow_TT_none tol dup lk r hpk nd, e1, e2]
        right
        refine ⟨[(r.phone, PhoneEntry.dates [])], lookupA_setA_self _ _ _, hp2, ?_⟩
        apply invTT_char_update
        intro ph
        rw [hdone0, nd, hphonef ph]
        by_cases hph : r.phone = ph <;> simp [lookupA, hph]
      | some d =>
        rw [addRow_TT_some tol dup lk r hpk d nd, e1, e2]
        have l2 : lookupA (setA lk r.pk (Entry.phoneMap [(r.phone, PhoneEntry.dates [])]))
            r.pk = some (Entry.phoneMap [(r.phone, PhoneEntry.dates [])]) :=
          lookupA_setA_self _ _ _
        have l3 : lookupA [(r.phone, PhoneEntry.dates [])] r.phone
            = some (PhoneEntry.dates []) := by simp [lookupA]
        rw [appendDatePhone_app _ _ _ _ _ _ l2 l3, setA_setA]
        right
        refine ⟨setA [(r.phone, PhoneEntry.dates [])] r.phone (PhoneEntry.dates ([] ++ [d])),
          lookupA_setA_self _ _ _, hp2, ?_⟩
        apply invTT_char_update
        intro ph
        rw [hdone0, nd, hphonef ph, lookupA_setA]
        by_cases hph : r.phone = ph <;> simp [lookupA, hph]
    · -- key already present with phone map m
      have e1 : ensureKey lk r.pk (Entry.phoneMap []) = lk := ensureKey_some _ _ _ _ hm
      by_cases hphm : hasPhone done r.pk r.phone = true
      · -- phone already present: entry is the list of its dates
        have hm_ph : lookupA m r.phone
            = some (PhoneEntry.dates (datesForPhone done r.pk r.phone)) := by
          rw [hchar r.phone, if_pos hphm]
        have e2 : ensurePhone lk r.pk r.phone (PhoneEntry.dates [])
            = lk := ensurePhone_skip _ _ _ _ _ _ hm hm_ph
        cases nd : normalize_date r.date with
        | none =>
          rw [addRow_TT_none tol dup lk r hpk nd, e1, e2]
          right
          refine ⟨m, hm, hp2, ?_⟩
          apply invTT_char_update
          intro ph
          rw [nd]
          by_cases hph : r.phone = ph
          · subst hph
            rw [if_pos rfl, hm_ph]
            simp
          · rw [if_neg hph, hchar ph]
        | some d =>
          rw [addRow_TT_some tol dup lk r hpk d nd, e1, e2,
            appendDatePhone_app _ _ _ _ _ _ hm hm_ph]
          right
          refine ⟨setA m r.phone
              (PhoneEntry.dates (datesForPhone done r.pk r.phone ++ [d])),
            lookupA_setA_self _ _ _, hp2, ?_⟩
          apply invTT_char_update
          intro ph
          rw [nd, lookupA_setA]
          by_cases hph : r.phone = ph
          · subst hph
            rw [if_pos rfl, if_pos rfl]
            rfl
          · rw [if_neg hph, if_neg hph, hchar ph]
      · -- phone not yet present under this key
        have hphmf : hasPhone done r.pk r.phone = false := by
          cases hcc : hasPhone done r.pk r.phone
          · rfl
          · exact absurd hcc hphm
        have hm_ph : lookupA m r.phone = none := by
          rw [hchar r.phone, if_neg (by simp [hphmf])]
        have hdone0 : datesForPhone done r.pk r.phone = [] :=
          datesForPhone_nil_of_hasPhone_false _ _ _ hphmf
        have e2 : ensurePhone lk r.pk r.phone (PhoneEntry.dates [])
            = setA lk r.pk (Entry.phoneMap (setA m r.phone (PhoneEntry.dates []))) :=
          ensurePhone_sets _ _ _ _ _ hm hm_ph
        cases nd : normalize_date r.date with
        | none =>
          rw [addRow_TT_none tol dup lk r hpk nd, e1, e2]
          right
          refine ⟨setA m r.phone (PhoneEntry.dates []), lookupA_setA_self _ _ _, hp2, ?_⟩
          apply invTT_char_update
          intro ph
          rw [nd, hdone0, lookupA_setA]
          by_cases hph : r.phone = ph
          · subst hph
            rw [if_pos rfl, if_pos rfl]
            rfl
          · rw [if_neg hph, if_neg hph, hchar ph]
        | some d =>
          rw [addRow_TT_some tol dup lk r hpk d nd, e1, e2]
          have l2 : lookupA
              (setA lk r.pk (Entry.phoneMap (setA m r.phone (PhoneEntry.dates [])))) r.pk
              = some (Entry.phoneMap (setA m r.phone (PhoneEntry.dates []))) :=
            lookupA_setA_self _ _ _
          have l3 : lookupA (setA m r.phone (PhoneEntry.dates [])) r.phone
              = some (PhoneEntry.dates []) := lookupA_setA_self _ _ _
          rw [appendDatePhone_app _ _ _ _ _ _ l2 l3, setA_setA, setA_setA]
          right
          refine ⟨setA m r.phone (PhoneEntry.dates ([] ++ [d])),
            lookupA_setA_self _ _ _, hp2, ?_⟩
          apply invTT_char_update
          intro ph
          rw [nd, hdone0, lookupA_setA]
          by_cases hph : r.phone = ph
          · subst hph
            rw [if_pos rfl, if_pos rfl]
            rfl
          · rw [if_neg hph, if_neg hph, hchar ph]

theorem buildLookup_InvTT [DecidableEq κ] [DecidableEq φ] (tol : Int) (dup : κ → Bool)
    (df2 : List (Row κ φ σ)) :
    InvTT dup df2 (buildLookup ⟨true, true, tol⟩ dup df2) := by
  have base : InvTT (σ := σ) dup [] ([] : List (κ × Entry φ)) := by
    intro pk hpk
    left
    exact ⟨rfl, rfl⟩
  have main : ∀ (rest : List (Row κ φ σ)) (done : List (Row κ φ σ))
      (lk : List (κ × Entry φ)), InvTT dup done lk →
      InvTT dup (done ++ rest) (rest.foldl (addRow ⟨true, true, tol⟩ dup) lk) := by
    intro rest
    induction rest with
    | nil =>
      intro done lk hinv
      simpa using hinv
    | cons r t ih =>
      intro done lk hinv
      rw [List.foldl_cons]
      have h2 := addRow_InvTT tol dup done lk r hinv
      have h3 := ih (done ++ [r]) _ h2
      simpa [List.append_assoc] using h3
  have := main df2 [] [] base
  simpa [buildLookup] using this

end HierKeyMatch

namespace HierKeyMatch

variable {κ φ ρ σ : Type}

theorem ensureKey_isSome_self [DecidableEq κ] (lk : List (κ × Entry φ)) (pk : κ)
    (e : Entry φ) : (lookupA (ensureKey lk pk e) pk).isSome = true := by
  unfold ensureKey
  cases hc : lookupA lk pk <;> simp [hc, lookupA_setA_self]

theorem appendDateKey_isSome_self [DecidableEq κ] (lk : List (κ × Entry φ)) (pk : κ)
    (d : Int) : (lookupA (appendDateKey lk pk d) pk).isSome = (lookupA lk pk).isSome := by
  unfold appendDateKey
  cases hc : lookupA lk pk with
  | none => simp [hc]
  | some e => cases e <;> simp [hc, lookupA_setA_self]

theorem ensurePhone_isSome_self [DecidableEq κ] [DecidableEq φ] (lk : List (κ × Entry φ))
    (pk : κ) (ph : φ) (v : PhoneEntry) :
    (lookupA (ensurePhone lk pk ph v) pk).isSome = (lookupA lk pk).isSome := by
  unfold ensurePhone
  cases hc : lookupA lk pk with
  | none => simp [hc]
  | some e =>
    cases e with
    | present => simp [hc]
    | dateList ds => simp [hc]
    | phoneMap m => cases hm : lookupA m ph <;> simp [hc, hm, lookupA_setA_self]

theorem appendDatePhone_isSome_self [DecidableEq κ] [DecidableEq φ]
    (lk : List (κ × Entry φ)) (pk : κ) (ph : φ) (d : Int) :
    (lookupA (appendDatePhone lk pk ph d) pk).isSome = (lookupA lk pk).isSome := by
  unfold appendDatePhone
  cases hc : lookupA lk pk with
  | none => simp [hc]
  | some e =>
    cases e with
    | present => simp [hc]
    | dateList ds => simp [hc]
    | phoneMap m =>
      cases hm : lookupA m ph with
      | none => simp [hc, hm]
      | some pe => cases pe <;> simp [hc, hm, lookupA_setA_self]

theorem addRow_isSome_self [DecidableEq κ] [DecidableEq φ] (cfg : Config)
    (dup : κ → Bool) (lk : List (κ × Entry φ)) (r : Row κ φ σ) :
    (lookupA (addRow cfg dup lk r) r.pk).isSome = true := by
  unfold addRow
  by_cases h1 : (dup r.pk && (cfg.phoneCol || cfg.dateCol)) = true
  · rw [if_pos h1]
    by_cases h2 : cfg.phoneCol = true
    · rw [if_neg (by simp [h2] : ¬ (!cfg.phoneCol) = true)]
      by_cases h3 : cfg.dateCol = true
      · rw [if_pos h3]
        cases nd : normalize_date r.date with
        | none => rw [ensurePhone_isSome_self, ensureKey_isSome_self]
        | some d =>
          rw [appendDatePhone_isSome_self, ensurePhone_isSome_self,
            ensureKey_isSome_self]
      · rw [if_neg h3, ensurePhone_isSome_self, ensureKey_isSome_self]
    · have h2' : cfg.phoneCol = false := by
        cases hcp : cfg.phoneCol
        · rfl
        · exact absurd hcp h2
      rw [if_pos (by simp [h2'] : (!cfg.phoneCol) = true)]
      cases hd : (if cfg.dateCol = true then normalize_date r.date else none) with
      | none => rw [ensureKey_isSome_self]
      | some d => rw [appendDateKey_isSome_self, ensureKey_isSome_self]
  · rw [if_neg h1]
    simp [lookupA_setA_self]

theorem addRow_isSome [DecidableEq κ] [DecidableEq φ] (cfg : Config) (dup : κ → Bool)
    (lk : List (κ × Entry φ)) (r : Row κ φ σ) (k : κ) :
    (lookupA (addRow cfg dup lk r) k).isSome
      = ((lookupA lk k).isSome || decide (r.pk = k)) := by
  by_cases hk : r.pk = k
  · subst hk
    rw [addRow_isSome_self]
    simp
  · rw [addRow_ne _ _ _ _ _ hk]
    simp [hk]

theorem foldl_addRow_isSome [DecidableEq κ] [DecidableEq φ] (cfg : Config)
    (dup : κ → Bool) :
    ∀ (df2 : List (Row κ φ σ)) (lk : List (κ × Entry φ)) (k : κ),
      (lookupA (df2.foldl (addRow cfg dup) lk) k).isSome
        = ((lookupA lk k).isSome || hasPK df2 k) := by
  intro df2
  induction df2 with
  | nil => intro lk k; simp [hasPK]
  | cons r t ih =>
    intro lk k
    rw [List.foldl_cons, ih, addRow_isSome]
    have hcons : hasPK (r :: t) k = (decide (r.pk = k) || hasPK t k) := by
      simp [hasPK]
    rw [hcons, Bool.or_assoc]

theorem buildLookup_isSome [DecidableEq κ] [DecidableEq φ] (cfg : Config)
    (dup : κ → Bool) (df2 : List (Row κ φ σ)) (k : κ) :
    (lookupA (buildLookup cfg dup df2) k).isSome = hasPK df2 k := by
  unfold buildLookup
  rw [foldl_addRow_isSome]
  simp [lookupA]

theorem datesForKey_nil_of_hasPK_false [DecidableEq κ] (rows : List (Row κ φ σ))
    (k : κ) (h : hasPK rows k = false) : datesForKey rows k = [] := by
  rw [List.eq_nil_iff_forall_not_mem]
  intro d hd
  rw [mem_datesForKey] at hd
  obtain ⟨r, hr, h1, _⟩ := hd
  have : hasPK rows k = true := (hasPK_iff rows k).2 ⟨r, hr, h1⟩
  rw [this] at h
  cases h

end HierKeyMatch

namespace HierKeyMatch

variable {κ φ ρ σ : Type}

theorem invTF_char_update [DecidableEq κ] [DecidableEq φ]
    (done : List (Row κ φ σ)) (r : Row κ φ σ) (m2 : List (φ × PhoneEntry))
    (hB : ∀ ph, lookupA m2 ph =
      (if r.phone = ph then some PhoneEntry.present
       else (if hasPhone done r.pk ph = true then some PhoneEntry.present else none))) :
    ∀ ph, lookupA m2 ph =
      (if hasPhone (done ++ [r]) r.pk ph = true then some PhoneEntry.present else none) := by
  intro ph
  rw [hB ph, hasPhone_append]
  by_cases hph : r.phone = ph
  · subst hph
    simp
  · have h1 : (decide (r.pk = r.pk) && decide (r.phone = ph)) = false := by simp [hph]
    rw [h1]
    simp [hph]

theorem addRow_InvTF [DecidableEq κ] [DecidableEq φ] (tol : Int) (dup : κ → Bool)
    (done : List (Row κ φ σ)) (lk : List (κ × Entry φ)) (r : Row κ φ σ)
    (h : InvTF dup done lk) :
    InvTF dup (done ++ [r]) (addRow ⟨true, false, tol⟩ dup lk r) := by
  intro pk hpk
  by_cases hpkr : r.pk = pk
  case neg =>
    have hlk : lookupA (addRow ⟨true, false, tol⟩ dup lk r) pk = lookupA lk pk :=
      addRow_ne _ _ _ _ _ hpkr
    rcases h pk hpk with ⟨hf, hn⟩ | ⟨m, hm, hp, hchar⟩
    · left
      refine ⟨?_, by rw [hlk]; exact hn⟩
      rw [hasPK_append]
      simp [hf, hpkr]
    · right
      refine ⟨m, by rw [hlk]; exact hm, ?_, ?_⟩
      · rw [hasPK_append]
        simp [hp]
      · intro ph
        rw [hasPhone_append]
        have hd1 : (decide (r.pk = pk) && decide (r.phone = ph)) = false := by simp [hpkr]
        rw [hd1]
        simpa using hchar ph
  case pos =>
    subst hpkr
    have hp2 : hasPK (done ++ [r]) r.pk = true := by
      rw [hasPK_append]
      simp
    rw [addRow_TF_unfold tol dup lk r hpk]
    rcases h r.pk hpk with ⟨hf, hn⟩ | ⟨m, hm, hp, hchar⟩
    · have e1 : ensureKey lk r.pk (Entry.phoneMap []) = setA lk r.pk (Entry.phoneMap []) :=
        ensureKey_none _ _ _ hn
      have l1 : lookupA (setA lk r.pk (Entry.phoneMap [])) r.pk = some (Entry.phoneMap []) :=
        lookupA_setA_self _ _ _
      have e2 : ensurePhone (setA lk r.pk (Entry.phoneMap [])) r.pk r.phone
          PhoneEntry.present
          = setA lk r.pk (Entry.phoneMap [(r.phone, PhoneEntry.present)]) := by
        rw [ensurePhone_sets _ _ _ _ [] l1 rfl, setA_setA]
        rfl
      rw [e1, e2]
      right
      refine ⟨[(r.phone, PhoneEntry.present)], lookupA_setA_self _ _ _, hp2, ?_⟩
      apply invTF_char_update
      intro ph
      rw [hasPhone_false_of_hasPK_false _ _ _ hf]
      by_cases hph : r.phone = ph <;> simp [lookupA, hph]
    · have e1 : ensureKey lk r.pk (Entry.phoneMap []) = lk := ensureKey_some _ _ _ _ hm
      by_cases hphm : hasPhone done r.pk r.phone = true
      · have hm_ph : lookupA m r.phone = some PhoneEntry.present := by
          rw [hchar r.phone, if_pos hphm]
        have e2 : ensurePhone lk r.pk r.phone PhoneEntry.present = lk :=
          ensurePhone_skip _ _ _ _ _ _ hm hm_ph
        rw [e1, e2]
        right
        refine ⟨m, hm, hp2, ?_⟩
        apply invTF_char_update
        intro ph
        by_cases hph : r.phone = ph
        · subst hph
          rw [if_pos rfl, hm_ph]
        · rw [if_neg hph, hchar ph]
      · have hphmf : hasPhone done r.pk r.phone = false := by
          cases hcc : hasPhone done r.pk r.phone
          · rfl
          · exact absurd hcc hphm
        have hm_ph : lookupA m r.phone = none := by
          rw [hchar r.phone, if_neg (by simp [hphmf])]
        have e2 : ensurePhone lk r.pk r.phone PhoneEntry.present
            = setA lk r.pk (Entry.phoneMap (setA m r.phone PhoneEntry.present)) :=
          ensurePhone_sets _ _ _ _ _ hm hm_ph
        rw [e1, e2]
        right
        refine ⟨setA m r.phone PhoneEntry.present, lookupA_setA_self _ _ _, hp2, ?_⟩
        apply invTF_char_update
        intro ph
        rw [lookupA_setA]
        by_cases hph : r.phone = ph
        · rw [if_pos hph, if_pos hph]
        · rw [if_neg hph, if_neg hph, hchar ph]

theorem buildLookup_InvTF [DecidableEq κ] [DecidableEq φ] (tol : Int) (dup : κ → Bool)
    (df2 : List (Row κ φ σ)) :
    InvTF dup df2 (buildLookup ⟨true, false, tol⟩ dup df2) := by
  have base : InvTF (σ := σ) dup [] ([] : List (κ × Entry φ)) := by
    intro pk hpk
    left
    exact ⟨rfl, rfl⟩
  have main : ∀ (rest : List (Row κ φ σ)) (done : List (Row κ φ σ))
      (lk : List (κ × Entry φ)), InvTF dup done lk →
      InvTF dup (done ++ rest) (rest.foldl (addRow ⟨true, false, tol⟩ dup) lk) := by
    intro rest
    induction rest with
    | nil =>
      intro done lk hinv
      simpa using hinv
    | cons r t ih =>
      intro done lk hinv
      rw [List.foldl_cons]
      have h2 := addRow_InvTF tol dup done lk r hinv
      have h3 := ih (done ++ [r]) _ h2
      simpa [List.append_assoc] using h3
  have := main df2 [] [] base
  simpa [buildLookup] using this

theorem addRow_InvFT [DecidableEq κ] [DecidableEq φ] (tol : Int) (dup : κ → Bool)
    (done : List (Row κ φ σ)) (lk : List (κ × Entry φ)) (r : Row κ φ σ)
    (h : InvFT dup done lk) :
    InvFT dup (done ++ [r]) (addRow ⟨false, true, tol⟩ dup lk r) := by
  intro pk hpk
  by_cases hpkr : r.pk = pk
  case neg =>
    have hlk : lookupA (addRow ⟨false, true, tol⟩ dup lk r) pk = lookupA lk pk :=
      addRow_ne _ _ _ _ _ hpkr
    rcases h pk hpk with ⟨hf, hn⟩ | ⟨hm, hp⟩
    · left
      refine ⟨?_, by rw [hlk]; exact hn⟩
      rw [hasPK_append]
      simp [hf, hpkr]
    · right
      constructor
      · rw [hlk, datesForKey_append, if_neg hpkr]
        simpa using hm
      · rw [hasPK_append]
        simp [hp]
  case pos =>
    subst hpkr
    have hp2 : hasPK (done ++ [r]) r.pk = true := by
      rw [hasPK_append]
      simp
    rcases h r.pk hpk with ⟨hf, hn⟩ | ⟨hm, hp⟩
    · have e1 : ensureKey lk r.pk (Entry.dateList []) = setA lk r.pk (Entry.dateList []) :=
        ensureKey_none _ _ _ hn
      have hk0 : datesForKey done r.pk = [] := datesForKey_nil_of_hasPK_false _ _ hf
      cases nd : normalize_date r.date with
      | none =>
        rw [addRow_FT_none tol dup lk r hpk nd, e1]
        right
        refine ⟨?_, hp2⟩
        rw [datesForKey_append, hk0, nd, if_pos rfl]
        simpa using lookupA_setA_self lk r.pk (Entry.dateList [])
      | some d =>
        rw [addRow_FT_some tol dup lk r hpk d nd, e1]
        have l1 : lookupA (setA lk r.pk (Entry.dateList [])) r.pk
            = some (Entry.dateList []) := lookupA_setA_self _ _ _
        rw [appendDateKey_app _ _ _ _ l1, setA_setA]
        right
        refine ⟨?_, hp2⟩
        rw [datesForKey_append, hk0, nd, if_pos rfl]
        simpa using lookupA_setA_self lk r.pk (Entry.dateList ([] ++ [d]))
    · have e1 : ensureKey lk r.pk (Entry.dateList []) = lk := ensureKey_some _ _ _ _ hm
      cases nd : normalize_date r.date with
      | none =>
        rw [addRow_FT_none tol dup lk r hpk nd, e1]
        right
        refine ⟨?_, hp2⟩
        rw [datesForKey_append, nd, if_pos rfl]
        simpa using hm
      | some d =>
        rw [addRow_FT_some tol dup lk r hpk d nd, e1, appendDateKey_app _ _ _ _ hm]
        right
        refine ⟨?_, hp2⟩
        rw [datesForKey_append, nd, if_pos rfl]
        simpa using lookupA_setA_self lk r.pk
          (Entry.dateList (datesForKey done r.pk ++ [d]))

theorem buildLookup_InvFT [DecidableEq κ] [DecidableEq φ] (tol : Int) (dup : κ → Bool)
    (df2 : List (Row κ φ σ)) :
    InvFT dup df2 (buildLookup ⟨false, true, tol⟩ dup df2) := by
  have base : InvFT (σ := σ) dup [] ([] : List (κ × Entry φ)) := by
    intro pk hpk
    left
    exact ⟨rfl, rfl⟩
  have main : ∀ (rest : List (Row κ φ σ)) (done : List (Row κ φ σ))
      (lk : List (κ × Entry φ)), InvFT dup done lk →
      InvFT dup (done ++ rest) (rest.foldl (addRow ⟨false, true, tol⟩ dup) lk) := by
    intro rest
    induction rest with
    | nil =>
      intro done lk hinv
      simpa using hinv
    | cons r t ih =>
      intro done lk hinv
      rw [List.foldl_cons]
      have h2 := addRow_InvFT tol dup done lk r hinv
      have h3 := ih (done ++ [r]) _ h2
      simpa [List.append_assoc] using h3
  have := main df2 [] [] base
  simpa [buildLookup] using this

end HierKeyMatch

namespace HierKeyMatch

variable {κ φ ρ σ : Type}

theorem classifyRow_none [DecidableEq κ] [DecidableEq φ] (cfg : Config) (dup : κ → Bool)
    (lk : List (κ × Entry φ)) (row : Row κ φ ρ) (h : lookupA lk row.pk = none) :
    classifyRow cfg dup lk row = RowResult.unmatched (Reason.pkNotFound row.pk) := by
  unfold classifyRow
  simp [h]

theorem classify_not_dup [DecidableEq κ] [DecidableEq φ] (cfg : Config) (dup : κ → Bool)
    (lk : List (κ × Entry φ)) (row : Row κ φ ρ) (h : dup row.pk = false) :
    classifyRow cfg dup lk row
      = (if (lookupA lk row.pk).isSome
         then RowResult.matched Level.primary_only
         else RowResult.unmatched (Reason.pkNotFound row.pk)) := by
  unfold classifyRow
  cases hc : lookupA lk row.pk with
  | none => simp [hc]
  | some e => simp [hc, h]

theorem classify_unique [DecidableEq κ] [DecidableEq φ] (cfg : Config)
    (df1 : List (Row κ φ ρ)) (df2 : List (Row κ φ σ)) (row : Row κ φ ρ)
    (hdup : isDup df1 df2 row.pk = false) :
    classifyRow cfg (isDup df1 df2) (buildLookup cfg (isDup df1 df2) df2) row
      = (if hasPK df2 row.pk
         then RowResult.matched Level.primary_only
         else RowResult.unmatched (Reason.pkNotFound row.pk)) := by
  rw [classify_not_dup _ _ _ _ hdup, buildLookup_isSome]

theorem classifyRow_TT_entry [DecidableEq κ] [DecidableEq φ] (tol : Int) (dup : κ → Bool)
    (lk : List (κ × Entry φ)) (row : Row κ φ ρ) (m : List (φ × PhoneEntry))
    (hdup : dup row.pk = true) (hm : lookupA lk row.pk = some (Entry.phoneMap m)) :
    classifyRow ⟨true, true, tol⟩ dup lk row
      = (match lookupA m row.phone with
         | none => RowResult.unmatched (Reason.pdPhoneNotFound row.pk row.phone)
         | some pe =>
           match normalize_date row.date, pe with
           | some d1, PhoneEntry.dates ds =>
             if ds.any (fun d2 => dates_within_range (some d1) (some d2) tol) then
               RowResult.matched Level.primary_phone_date
             else
               RowResult.unmatched (Reason.pdDateNoMatch row.pk row.phone tol)
           | _, PhoneEntry.present => RowResult.matched Level.primary_phone
           | none, PhoneEntry.dates _ =>
             RowResult.unmatched (Reason.pdInvalidDate row.pk row.phone)) := by
  unfold classifyRow
  simp [hm, hdup]

theorem classifyRow_TF_entry [DecidableEq κ] [DecidableEq φ] (tol : Int) (dup : κ → Bool)
    (lk : List (κ × Entry φ)) (row : Row κ φ ρ) (m : List (φ × PhoneEntry))
    (hdup : dup row.pk = true) (hm : lookupA lk row.pk = some (Entry.phoneMap m)) :
    classifyRow ⟨true, false, tol⟩ dup lk row
      = (if (lookupA m row.phone).isSome
         then RowResult.matched Level.primary_phone
         else RowResult.unmatched (Reason.dupPhoneNotFound row.pk row.phone)) := by
  unfold classifyRow
  simp [hm, hdup]

theorem classifyRow_FT_entry [DecidableEq κ] [DecidableEq φ] (tol : Int) (dup : κ → Bool)
    (lk : List (κ × Entry φ)) (row : Row κ φ ρ) (ds : List Int)
    (hdup : dup row.pk = true) (hm : lookupA lk row.pk = some (Entry.dateList ds)) :
    classifyRow ⟨false, true, tol⟩ dup lk row
      = (match normalize_date row.date with
         | none => RowResult.unmatched (Reason.dupInvalidDate row.pk)
         | some d1 =>
           if ds.any (fun d2 => dates_within_range (some d1) (some d2) tol) then
             RowResult.matched Level.primary_date
           else
             RowResult.unmatched (Reason.dupDateNoMatch row.pk tol)) := by
  unfold classifyRow
  cases nd : normalize_date row.date with
  | none => simp [hm, hdup, nd]
  | some d1 => simp [hm, hdup, nd]

theorem classify_TT [DecidableEq κ] [DecidableEq φ] (tol : Int)
    (df1 : List (Row κ φ ρ)) (df2 : List (Row κ φ σ)) (row : Row κ φ ρ)
    (hdup : isDup df1 df2 row.pk = true) :
    classifyRow ⟨true, true, tol⟩ (isDup df1 df2)
        (buildLookup ⟨true, true, tol⟩ (isDup df1 df2) df2) row
      = (if hasPK df2 row.pk = false
         then RowResult.unmatched (Reason.pkNotFound row.pk)
         else if hasPhone df2 row.pk row.phone = false
         then RowResult.unmatched (Reason.pdPhoneNotFound row.pk row.phone)
         else match normalize_date row.date with
           | none => RowResult.unmatched (Reason.pdInvalidDate row.pk row.phone)
           | some d1 =>
             if (datesForPhone df2 row.pk row.phone).any
                 (fun d2 => dates_within_range (some d1) (some d2) tol)
             then RowResult.matched Level.primary_phone_date
             else RowResult.unmatched (Reason.pdDateNoMatch row.pk row.phone tol)) := by
  rcases buildLookup_InvTT (κ := κ) (φ := φ) (σ := σ) tol (isDup df1 df2) df2 row.pk hdup
    with ⟨hf, hn⟩ | ⟨m, hm, hp, hchar⟩
  · rw [if_pos hf]
    exact classifyRow_none _ _ _ _ hn
  · rw [if_neg (by simp [hp])]
    rw [classifyRow_TT_entry tol _ _ _ m hdup hm]
    by_cases hph : hasPhone df2 row.pk row.phone = true
    · have hm_ph := hchar row.phone
      rw [if_pos hph] at hm_ph
      rw [hm_ph, if_neg (by simp [hph])]
      cases nd : normalize_date row.date with
      | none => rfl
      | some d1 => rfl
    · have hphf : hasPhone df2 row.pk row.phone = false := by
        cases hcc : hasPhone df2 row.pk row.phone
        · rfl
        · exact absurd hcc hph
      have hm_ph := hchar row.phone
      rw [if_neg (by simp [hphf])] at hm_ph
      rw [hm_ph, if_pos hphf]

theorem classify_TF [DecidableEq κ] [DecidableEq φ] (tol : Int)
    (df1 : List (Row κ φ ρ)) (df2 : List (Row κ φ σ)) (row : Row κ φ ρ)
    (hdup : isDup df1 df2 row.pk = true) :
    classifyRow ⟨true, false, tol⟩ (isDup df1 df2)
        (buildLookup ⟨true, false, tol⟩ (isDup df1 df2) df2) row
      = (if hasPK df2 row.pk = false
         then RowResult.unmatched (Reason.pkNotFound row.pk)
         else if hasPhone df2 row.pk row.phone
         then RowResult.matched Level.primary_phone
         else RowResult.unmatched (Reason.dupPhoneNotFound row.pk row.phone)) := by
  rcases buildLookup_InvTF (κ := κ) (φ := φ) (σ := σ) tol (isDup df1 df2) df2 row.pk hdup
    with ⟨hf, hn⟩ | ⟨m, hm, hp, hchar⟩
  · rw [if_pos hf]
    exact classifyRow_none _ _ _ _ hn
  · rw [if_neg (by simp [hp])]
    rw [classifyRow_TF_entry tol _ _ _ m hdup hm, hchar row.phone]
    by_cases hph : hasPhone df2 row.pk row.phone = true
    · rw [if_pos hph, if_pos hph]
      rfl
    · have hphf : hasPhone df2 row.pk row.phone = false := by
        cases hcc : hasPhone df2 row.pk row.phone
        · rfl
        · exact absurd hcc hph
      rw [if_neg (by simp [hphf]), if_neg (by simp [hphf])]

theorem classify_FT [DecidableEq κ] [DecidableEq φ] (tol : Int)
    (df1 : List (Row κ φ ρ)) (df2 : List (Row κ φ σ)) (row : Row κ φ ρ)
    (hdup : isDup df1 df2 row.pk = true) :
    classifyRow ⟨false, true, tol⟩ (isDup df1 df2)
        (buildLookup ⟨false, true, tol⟩ (isDup df1 df2) df2) row
      = (if hasPK df2 row.pk = false
         then RowResult.unmatched (Reason.pkNotFound row.pk)
         else match normalize_date row.date with
           | none => RowResult.unmatched (Reason.dupInvalidDate row.pk)
           | some d1 =>
             if (datesForKey df2 row.pk).any
                 (fun d2 => dates_within_range (some d1) (some d2) tol)
             then RowResult.matched Level.primary_date
             else RowResult.unmatched (Reason.dupDateNoMatch row.pk tol)) := by
  rcases buildLookup_InvFT (κ := κ) (φ := φ) (σ := σ) tol (isDup df1 df2) df2 row.pk hdup
    with ⟨hf, hn⟩ | ⟨hm, hp⟩
  · rw [if_pos hf]
    exact classifyRow_none _ _ _ _ hn
  · rw [if_neg (by simp [hp])]
    exact classifyRow_FT_entry tol _ _ _ _ hdup hm

end HierKeyMatch

namespace HierKeyMatch

variable {κ φ ρ σ : Type}

theorem filterMap_get_of_indices (q : Row κ φ ρ → Bool) :
    ∀ (t : List (Row κ φ ρ)) (l0 : List (Row κ φ ρ)) (n : Nat),
      (∀ j, j < t.length → l0.get? (n + j) = t.get? j) →
      ((((List.enumFrom n t).filter (fun p => q p.2)).map Prod.fst).filterMap
        (fun i => l0.get? i)) = t.filter q := by
  intro t
  induction t with
  | nil => intro l0 n h; simp [List.enumFrom]
  | cons a tl ih =>
    intro l0 n h
    have h0 : l0.get? n = some a := by
      have := h 0 (by simp)
      simpa using this
    have hrec : ∀ j, j < tl.length → l0.get? (n + 1 + j) = tl.get? j := by
      intro j hj
      have hh := h (j + 1) (by simp only [List.length_cons]; omega)
      have harith : n + (j + 1) = n + 1 + j := by omega
      rw [harith] at hh
      simpa using hh
    have hunf : List.enumFrom n (a :: tl) = (n, a) :: List.enumFrom (n + 1) tl := rfl
    rw [hunf]
    by_cases hq : q a = true
    · rw [List.filter_cons_of_pos (by simpa using hq), List.map_cons,
        List.filterMap_cons, List.filter_cons_of_pos hq]
      rw [h0]
      rw [ih l0 (n + 1) hrec]
    · rw [List.filter_cons_of_neg (by simpa using hq),
        List.filter_cons_of_neg hq]
      rw [ih l0 (n + 1) hrec]

theorem matched_df_eq [DecidableEq κ] [DecidableEq φ] (cfg : Config)
    (df1 : List (Row κ φ ρ)) (df2 : List (Row κ φ σ)) (debug : Bool) :
    matched_df cfg df1 df2 debug
      = df1.filter (fun r => isMatchedB (classifyRow cfg (isDup df1 df2)
          (buildLookup cfg (isDup df1 df2) df2) r)) := by
  unfold matched_df hierarchical_match
  rw [foldl_matched]
  simp only [emptyOutput, List.nil_append]
  exact filterMap_get_of_indices
    (fun r => isMatchedB (classifyRow cfg (isDup df1 df2)
      (buildLookup cfg (isDup df1 df2) df2) r)) df1 df1 0 (by intro j hj; simp)

theorem unmatched_df_eq [DecidableEq κ] [DecidableEq φ] (cfg : Config)
    (df1 : List (Row κ φ ρ)) (df2 : List (Row κ φ σ)) (debug : Bool) :
    unmatched_df cfg df1 df2 debug
      = df1.filter (fun r => !isMatchedB (classifyRow cfg (isDup df1 df2)
          (buildLookup cfg (isDup df1 df2) df2) r)) := by
  unfold unmatched_df hierarchical_match
  rw [foldl_unmatched]
  simp only [emptyOutput, List.nil_append]
  exact filterMap_get_of_indices
    (fun r => !isMatchedB (classifyRow cfg (isDup df1 df2)
      (buildLookup cfg (isDup df1 df2) df2) r)) df1 df1 0 (by intro j hj; simp)

end HierKeyMatch

namespace HierKeyMatch

variable {κ φ ρ σ : Type}

/-- Claim C1, evaluated on the code at the failing input (Scenario C): in the
phone+date configuration, for the single reference row with key 0, phone 0
and a valid date, against a comparison dataset where key 0 is duplicated and
the (0, 0) entry carries zero valid recorded dates, the lookup entry for
that key and phone is an empty date list and the row is classified
Unmatched — not Matched at the primary_phone level as the claim states.
The lenient branch of lines 249-252 requires a non-list entry, but the
construction at line 171 initialises every phone entry to a list. -/
theorem c1_scenarioC_code_result :
    (hierarchical_match (⟨true, true, 3⟩ : Config)
        [(⟨0, 0, DateVal.valid 0, ()⟩ : Row Nat Nat Unit)]
        [(⟨0, 0, DateVal.missing, ()⟩ : Row Nat Nat Unit),
         ⟨0, 1, DateVal.missing, ()⟩] false).matched_indices = []
    ∧ (hierarchical_match (⟨true, true, 3⟩ : Config)
        [(⟨0, 0, DateVal.valid 0, ()⟩ : Row Nat Nat Unit)]
        [(⟨0, 0, DateVal.missing, ()⟩ : Row Nat Nat Unit),
         ⟨0, 1, DateVal.missing, ()⟩] false).unmatched_indices = [0]
    ∧ lookupA (buildLookup (⟨true, true, 3⟩ : Config)
        (isDup [(⟨0, 0, DateVal.valid 0, ()⟩ : Row Nat Nat Unit)]
          [(⟨0, 0, DateVal.missing, ()⟩ : Row Nat Nat Unit), ⟨0, 1, DateVal.missing, ()⟩])
        [(⟨0, 0, DateVal.missing, ()⟩ : Row Nat Nat Unit), ⟨0, 1, DateVal.missing, ()⟩]) 0
      = some (Entry.phoneMap [(0, PhoneEntry.dates []), (1, PhoneEntry.dates [])]) := by
  refine ⟨?_, ?_, ?_⟩ <;> decide

/-- Counterexample to claim C6: with the default debug flag off, an
unmatched reference row produces no diagnostic entry at all; and even with
debug on, a row unmatched because its primary key is absent gets only the
short record without the configured phone column's value. -/
theorem c6_counterexample :
    ((hierarchical_match (⟨false, false, 3⟩ : Config)
        [(⟨0, 0, DateVal.missing, ()⟩ : Row Nat Nat Unit)]
        ([] : List (Row Nat Nat Unit)) false).unmatched_indices = [0]
      ∧ (hierarchical_match (⟨false, false, 3⟩ : Config)
        [(⟨0, 0, DateVal.missing, ()⟩ : Row Nat Nat Unit)]
        ([] : List (Row Nat Nat Unit)) false).unmatched_reasons = [])
    ∧ ((hierarchical_match (⟨true, false, 3⟩ : Config)
        [(⟨0, 5, DateVal.missing, ()⟩ : Row Nat Nat Unit)]
        ([] : List (Row Nat Nat Unit)) true).unmatched_indices = [0]
      ∧ (hierarchical_match (⟨true, false, 3⟩ : Config)
        [(⟨0, 5, DateVal.missing, ()⟩ : Row Nat Nat Unit)]
        ([] : List (Row Nat Nat Unit)) true).unmatched_reasons
        = [DebugEntry.pkOnly 0 0 (Reason.pkNotFound 0)]) := by
  refine ⟨⟨?_, ?_⟩, ?_, ?_⟩ <;> decide

/-- Counterexample to claim C8: validating a missing primary column reports
the error on standard output, not on the standard error stream. -/
theorem c8_counterexample :
    (match_validation ⟨"id", none, none⟩ ["other"] ["id"]).map
        (fun e => e.stream) = some OutStream.stdout
    ∧ OutStream.stdout ≠ OutStream.stderr := by
  refine ⟨?_, ?_⟩ <;> decide

/-- Claim C7: the matched output rows form a sublist of the reference
dataset — they appear in their original relative order and are the original
rows unchanged (schema included) — and likewise the unmatched output rows;
each output is precisely a filter of the reference dataset by the row's
classification. -/
theorem c7_order_preservation [DecidableEq κ] [DecidableEq φ] (cfg : Config)
    (df1 : List (Row κ φ ρ)) (df2 : List (Row κ φ σ)) (debug : Bool) :
    (matched_df cfg df1 df2 debug).Sublist df1
    ∧ (unmatched_df cfg df1 df2 debug).Sublist df1
    ∧ matched_df cfg df1 df2 debug
      = df1.filter (fun r => isMatchedB (classifyRow cfg (isDup df1 df2)
          (buildLookup cfg (isDup df1 df2) df2) r))
    ∧ unmatched_df cfg df1 df2 debug
      = df1.filter (fun r => !isMatchedB (classifyRow cfg (isDup df1 df2)
          (buildLookup cfg (isDup df1 df2) df2) r)) := by
  refine ⟨?_, ?_, matched_df_eq cfg df1 df2 debug, unmatched_df_eq cfg df1 df2 debug⟩
  · rw [matched_df_eq]
    exact List.filter_sublist df1
  · rw [unmatched_df_eq]
    exact List.filter_sublist df1

/-- Claim C9: read_file reports file-not-found exactly when the path does
not exist; on an existing path whose lower-cased extension is not .xlsx,
.xls or .csv it reports an unsupported format; and on an existing path with
a recognized extension it reports neither error. -/
theorem c9_read_file (pathExists : Bool) (suffix : String) :
    (pathExists = false → read_file pathExists suffix = ReadOutcome.fileNotFound)
    ∧ (pathExists = true → lower suffix ≠ ".xlsx" → lower suffix ≠ ".xls" →
        lower suffix ≠ ".csv" →
        read_file pathExists suffix = ReadOutcome.unsupportedFormat (lower suffix))
    ∧ (pathExists = true →
        (lower suffix = ".xlsx" ∨ lower suffix = ".xls" ∨ lower suffix = ".csv") →
        read_file pathExists suffix ≠ ReadOutcome.fileNotFound
        ∧ ∀ s, read_file pathExists suffix ≠ ReadOutcome.unsupportedFormat s) := by
  refine ⟨?_, ?_, ?_⟩
  · intro h
    simp [read_file, h]
  · intro hex h1 h2 h3
    simp [read_file, hex, h1, h2, h3]
  · rintro hex (h | h | h) <;> simp [read_file, hex, h]

/-- Witness for C9 at a concrete input: an existing path with extension
.CSV is read as a csv file with no error. -/
theorem c9_read_file_witness :
    read_file true ".CSV" ≠ ReadOutcome.fileNotFound
    ∧ ∀ s, read_file true ".CSV" ≠ ReadOutcome.unsupportedFormat s :=
  (c9_read_file true ".CSV").2.2 rfl (Or.inr (Or.inr (by decide)))

/-- Claim C10: hierarchical_match totally partitions the reference row
indices — an index appears in the matched or unmatched list exactly when it
indexes a reference row, never in both, the two lengths sum to the
reference row count, and the four per-level counters sum to the number of
matched rows. -/
theorem c10_partition [DecidableEq κ] [DecidableEq φ] (cfg : Config)
    (df1 : List (Row κ φ ρ)) (df2 : List (Row κ φ σ)) (debug : Bool) :
    (∀ i, (i ∈ (hierarchical_match cfg df1 df2 debug).matched_indices
        ∨ i ∈ (hierarchical_match cfg df1 df2 debug).unmatched_indices) ↔ i < df1.length)
    ∧ (∀ i, ¬(i ∈ (hierarchical_match cfg df1 df2 debug).matched_indices
        ∧ i ∈ (hierarchical_match cfg df1 df2 debug).unmatched_indices))
    ∧ (hierarchical_match cfg df1 df2 debug).matched_indices.length
        + (hierarchical_match cfg df1 df2 debug).unmatched_indices.length = df1.length
    ∧ (hierarchical_match cfg df1 df2 debug).match_levels.total
        = (hierarchical_match cfg df1 df2 debug).matched_indices.length := by
  refine ⟨?_, ?_, match_lengths cfg df1 df2 debug, levels_total_eq cfg df1 df2 debug⟩
  · intro i
    rw [mem_matched_iff, mem_unmatched_iff]
    constructor
    · rintro (⟨hi, _⟩ | ⟨hi, _⟩) <;> exact hi
    · intro hi
      cases hq : isMatchedB (classifyRow cfg (isDup df1 df2)
          (buildLookup cfg (isDup df1 df2) df2) (df1.get ⟨i, hi⟩)) with
      | false => exact Or.inr ⟨hi, hq⟩
      | true => exact Or.inl ⟨hi, hq⟩
  · rintro i ⟨hm, hu⟩
    rw [mem_matched_iff] at hm
    rw [mem_unmatched_iff] at hu
    obtain ⟨hi1, h1⟩ := hm
    obtain ⟨hi2, h2⟩ := hu
    rw [show df1.get ⟨i, hi2⟩ = df1.get ⟨i, hi1⟩ from rfl, h1] at h2
    cases h2

/-- Witness for C10 at a concrete input: one reference row against an empty
comparison dataset is placed in exactly one partition. -/
theorem c10_partition_witness :
    (0 ∈ (hierarchical_match (⟨false, false, 3⟩ : Config)
        [(⟨0, 0, DateVal.missing, ()⟩ : Row Nat Nat Unit)]
        ([] : List (Row Nat Nat Unit)) false).matched_indices
      ∨ 0 ∈ (hierarchical_match (⟨false, false, 3⟩ : Config)
        [(⟨0, 0, DateVal.missing, ()⟩ : Row Nat Nat Unit)]
        ([] : List (Row Nat Nat Unit)) false).unmatched_indices)
    ∧ ¬(0 ∈ (hierarchical_match (⟨false, false, 3⟩ : Config)
        [(⟨0, 0, DateVal.missing, ()⟩ : Row Nat Nat Unit)]
        ([] : List (Row Nat Nat Unit)) false).matched_indices
      ∧ 0 ∈ (hierarchical_match (⟨false, false, 3⟩ : Config)
        [(⟨0, 0, DateVal.missing, ()⟩ : Row Nat Nat Unit)]
        ([] : List (Row Nat Nat Unit)) false).unmatched_indices) :=
  ⟨((c10_partition (⟨false, false, 3⟩ : Config)
      [(⟨0, 0, DateVal.missing, ()⟩ : Row Nat Nat Unit)]
      ([] : List (Row Nat Nat Unit)) false).1 0).mpr (by decide),
   (c10_partition (⟨false, false, 3⟩ : Config)
      [(⟨0, 0, DateVal.missing, ()⟩ : Row Nat Nat Unit)]
      ([] : List (Row Nat Nat Unit)) false).2.1 0⟩

end HierKeyMatch

namespace HierKeyMatch

variable {κ φ ρ σ : Type}

/-- Claim C2: for a reference row whose primary key occurs at most once in
each dataset, membership in the matched output is equivalent to
primary-key presence in the comparison dataset (and in the unmatched output
to its absence); the row is classified Matched at the primary_only level
when the key is present and Unmatched with the key-not-found reason when it
is absent; and the classification of such a row is unchanged under any
replacement of its phone, date and remaining-schema values. -/
theorem c2_unique_key_shortcut [DecidableEq κ] [DecidableEq φ] (cfg : Config)
    (df1 : List (Row κ φ ρ)) (df2 : List (Row κ φ σ)) (debug : Bool)
    (i : Nat) (hi : i < df1.length)
    (h1 : value_counts df1 (df1.get ⟨i, hi⟩).pk ≤ 1)
    (h2 : value_counts df2 (df1.get ⟨i, hi⟩).pk ≤ 1) :
    (i ∈ (hierarchical_match cfg df1 df2 debug).matched_indices
       ↔ hasPK df2 (df1.get ⟨i, hi⟩).pk = true)
    ∧ (i ∈ (hierarchical_match cfg df1 df2 debug).unmatched_indices
       ↔ hasPK df2 (df1.get ⟨i, hi⟩).pk = false)
    ∧ (∀ (ph : φ) (dv : DateVal) (rs : ρ),
        classifyRow cfg (isDup df1 df2) (buildLookup cfg (isDup df1 df2) df2)
          (Row.mk (df1.get ⟨i, hi⟩).pk ph dv rs)
        = classifyRow cfg (isDup df1 df2) (buildLookup cfg (isDup df1 df2) df2)
          (df1.get ⟨i, hi⟩))
    ∧ classifyRow cfg (isDup df1 df2) (buildLookup cfg (isDup df1 df2) df2)
        (df1.get ⟨i, hi⟩)
      = (if hasPK df2 (df1.get ⟨i, hi⟩).pk
         then RowResult.matched Level.primary_only
         else RowResult.unmatched (Reason.pkNotFound (df1.get ⟨i, hi⟩).pk)) := by
  have hdup : isDup df1 df2 (df1.get ⟨i, hi⟩).pk = false :=
    isDup_false_of_counts df1 df2 _ h1 h2
  have hcl := classify_unique cfg df1 df2 (df1.get ⟨i, hi⟩) hdup
  refine ⟨?_, ?_, ?_, hcl⟩
  · rw [mem_matched_iff]
    constructor
    · rintro ⟨hi2, hq⟩
      rw [show df1.get ⟨i, hi2⟩ = df1.get ⟨i, hi⟩ from rfl, hcl] at hq
      by_cases hpk : hasPK df2 (df1.get ⟨i, hi⟩).pk = true
      · exact hpk
      · rw [if_neg hpk] at hq
        simp [isMatchedB] at hq
    · intro hpk
      refine ⟨hi, ?_⟩
      rw [hcl, if_pos hpk]
      rfl
  · rw [mem_unmatched_iff]
    constructor
    · rintro ⟨hi2, hq⟩
      rw [show df1.get ⟨i, hi2⟩ = df1.get ⟨i, hi⟩ from rfl, hcl] at hq
      by_cases hpk : hasPK df2 (df1.get ⟨i, hi⟩).pk = true
      · rw [if_pos hpk] at hq
        simp [isMatchedB] at hq
      · cases hcc : hasPK df2 (df1.get ⟨i, hi⟩).pk with
        | false => rfl
        | true => exact absurd hcc hpk
    · intro hpk
      refine ⟨hi, ?_⟩
      rw [hcl, if_neg (by simp only [hpk]; decide)]
      rfl
  · intro ph dv rs
    have hdup2 : isDup df1 df2 (Row.mk (df1.get ⟨i, hi⟩).pk ph dv rs : Row κ φ ρ).pk
        = false := hdup
    rw [classify_unique cfg df1 df2 _ hdup2, hcl]

/-- Witness for C2 at a concrete input: a reference row with a key unique in
both datasets is matched exactly because the key is present in the
comparison dataset, despite differing phone and date values. -/
theorem c2_unique_key_shortcut_witness :
    0 ∈ (hierarchical_match (⟨true, true, 3⟩ : Config)
        [(⟨7, 1, DateVal.valid 0, ()⟩ : Row Nat Nat Unit)]
        [(⟨7, 2, DateVal.missing, ()⟩ : Row Nat Nat Unit)] false).matched_indices :=
  ((c2_unique_key_shortcut (⟨true, true, 3⟩ : Config)
      [(⟨7, 1, DateVal.valid 0, ()⟩ : Row Nat Nat Unit)]
      [(⟨7, 2, DateVal.missing, ()⟩ : Row Nat Nat Unit)] false 0 (by decide)
      (by decide) (by decide)).1).mpr (by decide)

/-- Claim C3: the ambiguous key set is exactly the union of the keys
duplicated in either dataset; a row whose key is unique in one dataset but
duplicated in the other never takes the simple primary-only match, and in
the phone configuration its outcome is decided by phone presence under the
key. -/
theorem c3_ambiguity_union [DecidableEq κ] [DecidableEq φ]
    (df1 : List (Row κ φ ρ)) (df2 : List (Row κ φ σ)) :
    (∀ k, isDup df1 df2 k = true ↔ (1 < value_counts df1 k ∨ 1 < value_counts df2 k))
    ∧ (∀ (cfg : Config) (row : Row κ φ ρ), (cfg.phoneCol || cfg.dateCol) = true →
        ((value_counts df1 row.pk ≤ 1 ∧ 1 < value_counts df2 row.pk) ∨
         (1 < value_counts df1 row.pk ∧ value_counts df2 row.pk ≤ 1)) →
        classifyRow cfg (isDup df1 df2) (buildLookup cfg (isDup df1 df2) df2) row
          ≠ RowResult.matched Level.primary_only)
    ∧ (∀ (tol : Int) (row : Row κ φ ρ),
        ((value_counts df1 row.pk ≤ 1 ∧ 1 < value_counts df2 row.pk) ∨
         (1 < value_counts df1 row.pk ∧ value_counts df2 row.pk ≤ 1)) →
        classifyRow ⟨true, false, tol⟩ (isDup df1 df2)
            (buildLookup ⟨true, false, tol⟩ (isDup df1 df2) df2) row
          = (if hasPK df2 row.pk = false
             then RowResult.unmatched (Reason.pkNotFound row.pk)
             else if hasPhone df2 row.pk row.phone
             then RowResult.matched Level.primary_phone
             else RowResult.unmatched (Reason.dupPhoneNotFound row.pk row.phone))) := by
  have hchar : ∀ k, isDup df1 df2 k = true
      ↔ (1 < value_counts df1 k ∨ 1 < value_counts df2 k) := isDup_iff df1 df2
  have hdup_of : ∀ (row : Row κ φ ρ),
      ((value_counts df1 row.pk ≤ 1 ∧ 1 < value_counts df2 row.pk) ∨
       (1 < value_counts df1 row.pk ∧ value_counts df2 row.pk ≤ 1)) →
      isDup df1 df2 row.pk = true := by
    intro row h
    rcases h with ⟨_, hb⟩ | ⟨ha, _⟩
    · exact (hchar row.pk).2 (Or.inr hb)
    · exact (hchar row.pk).2 (Or.inl ha)
  refine ⟨hchar, ?_, ?_⟩
  · intro cfg row hcfg hcross
    have hdup := hdup_of row hcross
    obtain ⟨pc, dc, tol⟩ := cfg
    cases pc with
    | true =>
      cases dc with
      | true =>
        rw [classify_TT tol df1 df2 row hdup]
        intro hcon
        repeat' split at hcon
        all_goals simp_all
      | false =>
        rw [classify_TF tol df1 df2 row hdup]
        intro hcon
        repeat' split at hcon
        all_goals simp_all
    | false =>
      cases dc with
      | true =>
        rw [classify_FT tol df1 df2 row hdup]
        intro hcon
        repeat' split at hcon
        all_goals simp_all
      | false => simp at hcfg
  · intro tol row hcross
    exact classify_TF tol df1 df2 row (hdup_of row hcross)

/-- Witness for C3 at a concrete input: key 1 is unique in the reference
dataset but duplicated in the comparison dataset, so the phone decides the
match. -/
theorem c3_ambiguity_union_witness :
    classifyRow (⟨true, false, 3⟩ : Config)
        (isDup [(⟨1, 5, DateVal.missing, ()⟩ : Row Nat Nat Unit)]
          [(⟨1, 5, DateVal.missing, ()⟩ : Row Nat Nat Unit), ⟨1, 6, DateVal.missing, ()⟩])
        (buildLookup (⟨true, false, 3⟩ : Config)
          (isDup [(⟨1, 5, DateVal.missing, ()⟩ : Row Nat Nat Unit)]
            [(⟨1, 5, DateVal.missing, ()⟩ : Row Nat Nat Unit), ⟨1, 6, DateVal.missing, ()⟩])
          [(⟨1, 5, DateVal.missing, ()⟩ : Row Nat Nat Unit), ⟨1, 6, DateVal.missing, ()⟩])
        (⟨1, 5, DateVal.missing, ()⟩ : Row Nat Nat Unit)
      = RowResult.matched Level.primary_phone := by
  have h := (c3_ambiguity_union
      [(⟨1, 5, DateVal.missing, ()⟩ : Row Nat Nat Unit)]
      [(⟨1, 5, DateVal.missing, ()⟩ : Row Nat Nat Unit),
       ⟨1, 6, DateVal.missing, ()⟩]).2.2 3
      (⟨1, 5, DateVal.missing, ()⟩ : Row Nat Nat Unit)
      (Or.inl (by decide))
  rw [h]
  decide

end HierKeyMatch

namespace HierKeyMatch

variable {κ φ ρ σ : Type}

/-- Claim C4: the date comparison is symmetric and inclusive of the exact
tolerance, equals the closed-interval test on the difference, and at each
date-requiring tier a row matches exactly when at least one comparison-side
row under the relevant key (and phone) carries a valid date within
tolerance of the row's own parsed date. -/
theorem c4_date_tolerance [DecidableEq κ] [DecidableEq φ] :
    (∀ (d1 d2 : Option Int) (tol : Int),
        dates_within_range d1 d2 tol = dates_within_range d2 d1 tol)
    ∧ (∀ (d1 d2 tol : Int), |d1 - d2| = tol →
        dates_within_range (some d1) (some d2) tol = true)
    ∧ (∀ (d1 d2 tol : Int),
        dates_within_range (some d1) (some d2) tol = true ↔ |d1 - d2| ≤ tol)
    ∧ (∀ (df1 : List (Row κ φ ρ)) (df2 : List (Row κ φ σ)) (row : Row κ φ ρ)
        (tol d1 : Int),
        isDup df1 df2 row.pk = true →
        hasPhone df2 row.pk row.phone = true →
        normalize_date row.date = some d1 →
        (isMatchedB (classifyRow ⟨true, true, tol⟩ (isDup df1 df2)
            (buildLookup ⟨true, true, tol⟩ (isDup df1 df2) df2) row) = true
          ↔ ∃ r ∈ df2, r.pk = row.pk ∧ r.phone = row.phone ∧
              ∃ d2, normalize_date r.date = some d2 ∧ |d1 - d2| ≤ tol))
    ∧ (∀ (df1 : List (Row κ φ ρ)) (df2 : List (Row κ φ σ)) (row : Row κ φ ρ)
        (tol d1 : Int),
        isDup df1 df2 row.pk = true →
        hasPK df2 row.pk = true →
        normalize_date row.date = some d1 →
        (isMatchedB (classifyRow ⟨false, true, tol⟩ (isDup df1 df2)
            (buildLookup ⟨false, true, tol⟩ (isDup df1 df2) df2) row) = true
          ↔ ∃ r ∈ df2, r.pk = row.pk ∧
              ∃ d2, normalize_date r.date = some d2 ∧ |d1 - d2| ≤ tol)) := by
  refine ⟨?_, ?_, ?_, ?_, ?_⟩
  · intro d1 d2 tol
    cases d1 <;> cases d2 <;> simp [dates_within_range, abs_sub_comm]
  · intro d1 d2 tol h
    simp [dates_within_range, h]
  · intro d1 d2 tol
    simp [dates_within_range]
  · intro df1 df2 row tol d1 hdup hph nd
    have hpk : hasPK df2 row.pk = true := hasPhone_imp_hasPK _ _ _ hph
    rw [classify_TT tol df1 df2 row hdup, if_neg (by simp [hpk]),
      if_neg (by simp [hph])]
    simp only [nd]
    constructor
    · intro hm
      by_cases hany : ((datesForPhone df2 row.pk row.phone).any
          (fun d2 => dates_within_range (some d1) (some d2) tol)) = true
      · rw [List.any_eq_true] at hany
        obtain ⟨d2, hmem, hw⟩ := hany
        rw [mem_datesForPhone] at hmem
        obtain ⟨r, hr, hpk2, hph2, hnd⟩ := hmem
        refine ⟨r, hr, hpk2, hph2, d2, hnd, ?_⟩
        simpa [dates_within_range] using hw
      · rw [if_neg hany] at hm
        simp [isMatchedB] at hm
    · rintro ⟨r, hr, hpk2, hph2, d2, hnd, hle⟩
      have hmem : d2 ∈ datesForPhone df2 row.pk row.phone :=
        (mem_datesForPhone _ _ _ _).2 ⟨r, hr, hpk2, hph2, hnd⟩
      have hany : ((datesForPhone df2 row.pk row.phone).any
          (fun d2 => dates_within_range (some d1) (some d2) tol)) = true :=
        List.any_eq_true.2 ⟨d2, hmem, by simpa [dates_within_range] using hle⟩
      rw [if_pos hany]
      rfl
  · intro df1 df2 row tol d1 hdup hpk nd
    rw [classify_FT tol df1 df2 row hdup, if_neg (by simp [hpk])]
    simp only [nd]
    constructor
    · intro hm
      by_cases hany : ((datesForKey df2 row.pk).any
          (fun d2 => dates_within_range (some d1) (some d2) tol)) = true
      · rw [List.any_eq_true] at hany
        obtain ⟨d2, hmem, hw⟩ := hany
        rw [mem_datesForKey] at hmem
        obtain ⟨r, hr, hpk2, hnd⟩ := hmem
        refine ⟨r, hr, hpk2, d2, hnd, ?_⟩
        simpa [dates_within_range] using hw
      · rw [if_neg hany] at hm
        simp [isMatchedB] at hm
    · rintro ⟨r, hr, hpk2, d2, hnd, hle⟩
      have hmem : d2 ∈ datesForKey df2 row.pk :=
        (mem_datesForKey _ _ _).2 ⟨r, hr, hpk2, hnd⟩
      have hany : ((datesForKey df2 row.pk).any
          (fun d2 => dates_within_range (some d1) (some d2) tol)) = true :=
        List.any_eq_true.2 ⟨d2, hmem, by simpa [dates_within_range] using hle⟩
      rw [if_pos hany]
      rfl

/-- Witness for C4 at concrete inputs: a difference of exactly the
tolerance matches. -/
theorem c4_date_tolerance_witness :
    dates_within_range (some 0) (some 3) 3 = true :=
  (c4_date_tolerance (κ := Nat) (φ := Nat) (ρ := Unit) (σ := Unit)).2.1 0 3 3
    (by decide)

/-- Claim C5: under a date-requiring ambiguous key, a reference row whose
date is missing or unparseable is always classified Unmatched, in both the
phone+date and date-only configurations; and every date recorded in the
comparison lookup comes from a comparison row whose date parsed
successfully, so missing comparison dates can never supply a match. -/
theorem c5_missing_dates [DecidableEq κ] [DecidableEq φ] :
    (∀ (pc : Bool) (df1 : List (Row κ φ ρ)) (df2 : List (Row κ φ σ))
        (row : Row κ φ ρ) (tol : Int),
        isDup df1 df2 row.pk = true →
        hasPK df2 row.pk = true →
        normalize_date row.date = none →
        ∃ rs, classifyRow ⟨pc, true, tol⟩ (isDup df1 df2)
            (buildLookup ⟨pc, true, tol⟩ (isDup df1 df2) df2) row
          = RowResult.unmatched rs)
    ∧ (∀ (df1 : List (Row κ φ ρ)) (df2 : List (Row κ φ σ)) (tol : Int) (pk : κ)
        (m : List (φ × PhoneEntry)) (ph : φ) (ds : List Int),
        isDup df1 df2 pk = true →
        lookupA (buildLookup ⟨true, true, tol⟩ (isDup df1 df2) df2) pk
          = some (Entry.phoneMap m) →
        lookupA m ph = some (PhoneEntry.dates ds) →
        ∀ d ∈ ds, ∃ r ∈ df2, r.pk = pk ∧ r.phone = ph ∧
          normalize_date r.date = some d)
    ∧ (∀ (df1 : List (Row κ φ ρ)) (df2 : List (Row κ φ σ)) (tol : Int) (pk : κ)
        (ds : List Int),
        isDup df1 df2 pk = true →
        lookupA (buildLookup ⟨false, true, tol⟩ (isDup df1 df2) df2) pk
          = some (Entry.dateList ds) →
        ∀ d ∈ ds, ∃ r ∈ df2, r.pk = pk ∧ normalize_date r.date = some d) := by
  refine ⟨?_, ?_, ?_⟩
  · intro pc df1 df2 row tol hdup hpk nd
    cases pc with
    | false =>
      rw [classify_FT tol df1 df2 row hdup, if_neg (by simp [hpk])]
      simp only [nd]
      exact ⟨_, rfl⟩
    | true =>
      rw [classify_TT tol df1 df2 row hdup, if_neg (by simp [hpk])]
      by_cases hph : hasPhone df2 row.pk row.phone = false
      · rw [if_pos hph]
        exact ⟨_, rfl⟩
      · rw [if_neg hph]
        simp only [nd]
        exact ⟨_, rfl⟩
  · intro df1 df2 tol pk m ph ds hdup hm hmp d hd
    rcases buildLookup_InvTT (κ := κ) (φ := φ) (σ := σ) tol (isDup df1 df2) df2 pk hdup
      with ⟨hf, hn⟩ | ⟨m2, hm2, hp2, hchar⟩
    · rw [hn] at hm
      cases hm
    · rw [hm2] at hm
      simp only [Option.some.injEq, Entry.phoneMap.injEq] at hm
      subst hm
      have hcp := hchar ph
      rw [hmp] at hcp
      by_cases hph : hasPhone df2 pk ph = true
      · rw [if_pos hph] at hcp
        simp only [Option.some.injEq, PhoneEntry.dates.injEq] at hcp
        rw [hcp] at hd
        rw [mem_datesForPhone] at hd
        exact hd
      · rw [if_neg hph] at hcp
        cases hcp
  · intro df1 df2 tol pk ds hdup hm d hd
    rcases buildLookup_InvFT (κ := κ) (φ := φ) (σ := σ) tol (isDup df1 df2) df2 pk hdup
      with ⟨hf, hn⟩ | ⟨hm2, hp2⟩
    · rw [hn] at hm
      cases hm
    · rw [hm2] at hm
      simp only [Option.some.injEq, Entry.dateList.injEq] at hm
      rw [← hm] at hd
      rw [mem_datesForKey] at hd
      exact hd

/-- Witness for C5 at a concrete input: a reference row with an unparseable
date, under a key duplicated in the comparison dataset, is unmatched even
though valid comparison dates exist. -/
theorem c5_missing_dates_witness :
    ∃ rs, classifyRow (⟨true, true, 3⟩ : Config)
        (isDup [(⟨1, 5, DateVal.unparseable, ()⟩ : Row Nat Nat Unit)]
          [(⟨1, 5, DateVal.valid 0, ()⟩ : Row Nat Nat Unit), ⟨1, 6, DateVal.valid 0, ()⟩])
        (buildLookup (⟨true, true, 3⟩ : Config)
          (isDup [(⟨1, 5, DateVal.unparseable, ()⟩ : Row Nat Nat Unit)]
            [(⟨1, 5, DateVal.valid 0, ()⟩ : Row Nat Nat Unit), ⟨1, 6, DateVal.valid 0, ()⟩])
          [(⟨1, 5, DateVal.valid 0, ()⟩ : Row Nat Nat Unit), ⟨1, 6, DateVal.valid 0, ()⟩])
        (⟨1, 5, DateVal.unparseable, ()⟩ : Row Nat Nat Unit)
      = RowResult.unmatched rs :=
  (c5_missing_dates (κ := Nat) (φ := Nat) (ρ := Unit) (σ := Unit)).1 true
    [(⟨1, 5, DateVal.unparseable, ()⟩ : Row Nat Nat Unit)]
    [(⟨1, 5, DateVal.valid 0, ()⟩ : Row Nat Nat Unit), ⟨1, 6, DateVal.valid 0, ()⟩]
    (⟨1, 5, DateVal.unparseable, ()⟩ : Row Nat Nat Unit) 3
    (by decide) (by decide) rfl

end HierKeyMatch

namespace HierKeyMatch

variable {κ φ ρ σ : Type}

theorem classify_pkNotFound_inv [DecidableEq κ] [DecidableEq φ] (cfg : Config)
    (dup : κ → Bool) (lk : List (κ × Entry φ)) (row : Row κ φ ρ) (pk : κ)
    (h : classifyRow cfg dup lk row = RowResult.unmatched (Reason.pkNotFound pk)) :
    pk = row.pk := by
  unfold classifyRow at h
  cases hc : lookupA lk row.pk with
  | none =>
    simp only [hc, RowResult.unmatched.injEq, Reason.pkNotFound.injEq] at h
    exact h.symm
  | some e =>
    simp only [hc] at h
    repeat' split at h
    all_goals simp_all

theorem entryFor_eq_expectedEntry [DecidableEq κ] [DecidableEq φ] (cfg : Config)
    (dup : κ → Bool) (lk : List (κ × Entry φ)) (p : Nat × Row κ φ ρ) :
    entryFor cfg dup lk p = expectedEntry cfg dup lk p := by
  unfold entryFor expectedEntry
  cases hc : classifyRow cfg dup lk p.2 with
  | matched lvl => simp only [hc]
  | unmatched r =>
    simp only [hc]
    cases r with
    | pkNotFound pk2 =>
      have hpk := classify_pkNotFound_inv cfg dup lk p.2 pk2 hc
      subst hpk
      rfl
    | dupDateNoMatch a b => rfl
    | dupInvalidDate a => rfl
    | dupPhoneNotFound a b => rfl
    | pdPhoneNotFound a b => rfl
    | pdDateNoMatch a b c => rfl
    | pdInvalidDate a b => rfl

theorem mem_enumFrom_get {α : Type} :
    ∀ (l : List α) (n i : Nat) (hi : i < l.length),
      (n + i, l.get ⟨i, hi⟩) ∈ List.enumFrom n l := by
  intro l
  induction l with
  | nil => intro n i hi; simp at hi
  | cons a t ih =>
    intro n i hi
    cases i with
    | zero => exact List.mem_cons_self _ _
    | succ j =>
      have harith : n + (j + 1) = n + 1 + j := by omega
      rw [harith]
      exact List.mem_cons_of_mem _
        (ih (n + 1) j (by simp only [List.length_cons] at hi; omega))

/-- Claim C6 (amended): when debug is enabled, hierarchical_match records
exactly one diagnostic entry per unmatched row, in order, carrying that
row's index; the recorded list equals, entry by entry, the expected record
of each unmatched reference row — the short record with the row's own
primary key when the key is absent from the comparison dataset, and
otherwise the full record with the row's own primary key, its phone value
exactly when a phone column is configured, its date value exactly when a
date column is configured, and the row's reason; matched rows are tallied
in the count-by-level summary. -/
theorem c6_debug_diagnostics [DecidableEq κ] [DecidableEq φ] (cfg : Config)
    (df1 : List (Row κ φ ρ)) (df2 : List (Row κ φ σ)) :
    ((hierarchical_match cfg df1 df2 true).unmatched_reasons.map DebugEntry.row_index
      = (hierarchical_match cfg df1 df2 true).unmatched_indices)
    ∧ ((hierarchical_match cfg df1 df2 true).unmatched_reasons
      = (List.enumFrom 0 df1).filterMap
          (expectedEntry cfg (isDup df1 df2) (buildLookup cfg (isDup df1 df2) df2)))
    ∧ (∀ (i : Nat) (hi : i < df1.length) (r : Reason κ φ),
        classifyRow cfg (isDup df1 df2) (buildLookup cfg (isDup df1 df2) df2)
            (df1.get ⟨i, hi⟩) = RowResult.unmatched r →
        (match r with
         | Reason.pkNotFound _ =>
           DebugEntry.pkOnly i (df1.get ⟨i, hi⟩).pk
             (Reason.pkNotFound (df1.get ⟨i, hi⟩).pk)
         | r =>
           DebugEntry.full i (df1.get ⟨i, hi⟩).pk
             (if cfg.phoneCol then some (df1.get ⟨i, hi⟩).phone else none)
             (if cfg.dateCol then some (df1.get ⟨i, hi⟩).date else none) r)
          ∈ (hierarchical_match cfg df1 df2 true).unmatched_reasons)
    ∧ (hierarchical_match cfg df1 df2 true).match_levels.total
      = (hierarchical_match cfg df1 df2 true).matched_indices.length := by
  have hreasons : (hierarchical_match cfg df1 df2 true).unmatched_reasons
      = (List.enumFrom 0 df1).filterMap
          (expectedEntry cfg (isDup df1 df2) (buildLookup cfg (isDup df1 df2) df2)) := by
    unfold hierarchical_match
    rw [foldl_reasons]
    simp only [emptyOutput, List.nil_append]
    exact congrArg (fun f => (List.enumFrom 0 df1).filterMap f)
      (funext (entryFor_eq_expectedEntry cfg (isDup df1 df2)
        (buildLookup cfg (isDup df1 df2) df2)))
  refine ⟨?_, hreasons, ?_, levels_total_eq cfg df1 df2 true⟩
  · unfold hierarchical_match
    rw [foldl_reasons, foldl_unmatched]
    simp only [emptyOutput, List.nil_append]
    exact map_row_index_entryFor _ _ _ _
  · intro i hi r hcr
    rw [hreasons]
    apply List.mem_filterMap.2
    refine ⟨(i, df1.get ⟨i, hi⟩), ?_, ?_⟩
    · simpa using mem_enumFrom_get df1 0 i hi
    · have hcr2 : classifyRow cfg (isDup df1 df2) (buildLookup cfg (isDup df1 df2) df2)
          ((i, df1.get ⟨i, hi⟩) : Nat × Row κ φ ρ).2 = RowResult.unmatched r := hcr
      unfold expectedEntry
      simp only [hcr2]
      cases r with
      | pkNotFound pk2 => rfl
      | dupDateNoMatch a b => rfl
      | dupInvalidDate a => rfl
      | dupPhoneNotFound a b => rfl
      | pdPhoneNotFound a b => rfl
      | pdDateNoMatch a b c => rfl
      | pdInvalidDate a b => rfl

/-- Witness for C6 at a concrete input: under a configured phone column, a
row whose primary key is absent from the comparison dataset gets exactly
the short record carrying its own key and reason. -/
theorem c6_debug_diagnostics_witness :
    (DebugEntry.pkOnly 0 0 (Reason.pkNotFound 0) : DebugEntry Nat Nat)
      ∈ (hierarchical_match (⟨true, false, 3⟩ : Config)
          [(⟨0, 5, DateVal.missing, ()⟩ : Row Nat Nat Unit)]
          ([] : List (Row Nat Nat Unit)) true).unmatched_reasons :=
  (c6_debug_diagnostics (⟨true, false, 3⟩ : Config)
      [(⟨0, 5, DateVal.missing, ()⟩ : Row Nat Nat Unit)]
      ([] : List (Row Nat Nat Unit))).2.2.1 0 (by decide)
    (Reason.pkNotFound 0) (by decide)

/-- Claim C8 (amended): a configured, non-empty column name missing from
the first dataset is reported with exit status 1, the full available-column
list of that dataset, and the message on standard output; if all configured
columns are present in the first dataset but one is missing from the
second, the same report is produced for the second dataset. -/
theorem c8_missing_column_report (cc : ColumnConfig) (schema1 schema2 : List String) :
    ((∃ c ∈ cols_to_validate cc, ¬ c = "" ∧ c ∉ schema1) →
      ∃ e, match_validation cc schema1 schema2 = some e ∧ e.exit_code = 1 ∧
        e.stream = OutStream.stdout ∧ e.available = schema1 ∧ e.missing_cols ≠ [])
    ∧ ((∀ c ∈ cols_to_validate cc, c = "" ∨ c ∈ schema1) →
       (∃ c ∈ cols_to_validate cc, ¬ c = "" ∧ c ∉ schema2) →
      ∃ e, match_validation cc schema1 schema2 = some e ∧ e.exit_code = 1 ∧
        e.stream = OutStream.stdout ∧ e.available = schema2 ∧ e.missing_cols ≠ []) := by
  constructor
  · rintro ⟨c, hc, hne, hnotin⟩
    have hmem : c ∈ (cols_to_validate cc).filter
        (fun c => !(decide (c = "")) && !(decide (c ∈ schema1))) :=
      List.mem_filter.2 ⟨hc, by simp [hne, hnotin]⟩
    have hnil : (cols_to_validate cc).filter
        (fun c => !(decide (c = "")) && !(decide (c ∈ schema1))) ≠ [] :=
      List.ne_nil_of_mem hmem
    have h1 : validate_columns schema1 (cols_to_validate cc)
        = some ⟨(cols_to_validate cc).filter
            (fun c => !(decide (c = "")) && !(decide (c ∈ schema1))),
          schema1, OutStream.stdout, 1⟩ := by
      unfold validate_columns
      rw [if_neg hnil]
    refine ⟨⟨(cols_to_validate cc).filter
        (fun c => !(decide (c = "")) && !(decide (c ∈ schema1))),
      schema1, OutStream.stdout, 1⟩, ?_, rfl, rfl, rfl, hnil⟩
    unfold match_validation
    rw [h1]
  · intro hall
    rintro ⟨c, hc, hne, hnotin⟩
    have hnil1 : (cols_to_validate cc).filter
        (fun c => !(decide (c = "")) && !(decide (c ∈ schema1))) = [] := by
      rw [List.filter_eq_nil_iff]
      intro a ha
      rcases hall a ha with h | h <;> simp [h]
    have h1 : validate_columns schema1 (cols_to_validate cc) = none := by
      unfold validate_columns
      rw [if_pos hnil1]
    have hmem : c ∈ (cols_to_validate cc).filter
        (fun c => !(decide (c = "")) && !(decide (c ∈ schema2))) :=
      List.mem_filter.2 ⟨hc, by simp [hne, hnotin]⟩
    have hnil : (cols_to_validate cc).filter
        (fun c => !(decide (c = "")) && !(decide (c ∈ schema2))) ≠ [] :=
      List.ne_nil_of_mem hmem
    have h2 : validate_columns schema2 (cols_to_validate cc)
        = some ⟨(cols_to_validate cc).filter
            (fun c => !(decide (c = "")) && !(decide (c ∈ schema2))),
          schema2, OutStream.stdout, 1⟩ := by
      unfold validate_columns
      rw [if_neg hnil]
    refine ⟨⟨(cols_to_validate cc).filter
        (fun c => !(decide (c = "")) && !(decide (c ∈ schema2))),
      schema2, OutStream.stdout, 1⟩, ?_, rfl, rfl, rfl, hnil⟩
    unfold match_validation
    rw [h1, h2]

/-- Witness for C8 at a concrete input: the primary column named id is
missing from the first dataset, so validation fails with exit status 1 on
standard output listing that dataset's columns. -/
theorem c8_missing_column_report_witness :
    ∃ e, match_validation ⟨"id", none, none⟩ ["other"] ["id"] = some e
      ∧ e.exit_code = 1 ∧ e.stream = OutStream.stdout
      ∧ e.available = ["other"] ∧ e.missing_cols ≠ [] :=
  (c8_missing_column_report ⟨"id", none, none⟩ ["other"] ["id"]).1
    ⟨"id", by decide, by decide, by decide⟩

end HierKeyMatch
